import Mathlib

/-!
# gator: command dispatch, auth middleware and the feed-ingestion cycle

A shallow embedding of `main.go` and `internal/config/config.go`.

* Go functions that touch the process (store, network, clock, stdout, `os.Exit`)
  become functions in the monad `M σ`, a state monad over `World σ` whose
  results are `Res`: normal return, `os.Exit`, panic, or still running.
* `σ` is the state of the data store.  The generated package
  `internal/database` and the Go standard library are not part of the
  sources; their operations are fields of `Env σ`.
* Every call that leaves `main.go` (a store query, the HTTP request, the
  write of the configuration file) is appended to `World.trace`.
-/

set_option autoImplicit false
set_option linter.dupNamespace false

namespace Gator

/-! ## Go values -/

/-- Go `error` values: `fmt.Errorf` without `%w`, the sentinel `sql.ErrNoRows`,
an error produced by a library or by the store, and `fmt.Errorf("...%w", err)`. -/
inductive Error where
  | errorf (msg : String)
  | ErrNoRows
  | lib (msg : String)
  | wrapf (pre : String) (inner : Error)
  deriving DecidableEq, Repr

/-- The method `Error()` of an error value. -/
def Error.Error : Error → String
  | .errorf msg => msg
  | .ErrNoRows => "sql: no rows in result set"
  | .lib msg => msg
  | .wrapf pre inner => pre ++ inner.Error

/-- A `uuid.UUID`, as an abstract number. -/
structure UUID where
  n : Nat
  deriving DecidableEq, Repr

/-- A `time.Time`: seconds and nanoseconds since the zero time, and zone offset. -/
structure Time where
  sec : Int
  nsec : Nat
  offset : Int
  deriving DecidableEq, Repr

/-- The zero value of `time.Time`. -/
def Time.zero : Time := ⟨0, 0, 0⟩

/-- Go `sql.NullTime`. -/
structure NullTime where
  Time : Time
  Valid : Bool
  deriving DecidableEq, Repr

/-- Go `sql.NullString`. -/
structure NullString where
  String : String
  Valid : Bool
  deriving DecidableEq, Repr

/-- Conversion `int32(x)` of a Go `int`: wrap to 32 bits, two's complement. -/
def toInt32 (x : Int) : Int :=
  (x + 2 ^ 31) % 2 ^ 32 - 2 ^ 31

/-! ## Records of `internal/database` -/

/-- Modelled from the spec: `database.User` of the generated package
`internal/database` (identity and display name, with the two time stamps
every record of the store carries). -/
structure User where
  ID : UUID
  CreatedAt : Time
  UpdatedAt : Time
  Name : String
  deriving DecidableEq, Repr

/-- Modelled from the spec: `database.Feed` (identity, display name, source URL,
owning user, nullable last-fetched stamp). -/
structure Feed where
  ID : UUID
  CreatedAt : Time
  UpdatedAt : Time
  Name : String
  Url : String
  UserID : UUID
  LastFetchedAt : NullTime
  deriving DecidableEq, Repr

/-- Modelled from the spec: `database.Post` (identity, optional title and
description, URL, optional publication time, owning feed). -/
structure Post where
  ID : UUID
  CreatedAt : Time
  UpdatedAt : Time
  PublishedAt : NullTime
  Title : NullString
  Url : String
  Description : NullString
  FeedID : UUID
  deriving DecidableEq, Repr

/-- The zero value of `database.Post`. -/
def Post.zero : Post :=
  ⟨⟨0⟩, Time.zero, Time.zero, ⟨Time.zero, false⟩, ⟨"", false⟩, "", ⟨"", false⟩, ⟨0⟩⟩

/-- Modelled from the spec: `database.CreateUserParams`, the fields `handlerRegister` sets. -/
structure CreateUserParams where
  ID : UUID
  CreatedAt : Time
  UpdatedAt : Time
  Name : String
  deriving DecidableEq, Repr

/-- Modelled from the spec: `database.CreateFeedParams`, the fields `handlerAddFeed` sets. -/
structure CreateFeedParams where
  ID : UUID
  CreatedAt : Time
  UpdatedAt : Time
  Name : String
  Url : String
  UserID : UUID
  deriving DecidableEq, Repr

/-- Modelled from the spec: `database.CreateFeedFollowParams`, the fields
`handlerFollow` and `handlerAddFeed` set. -/
structure CreateFeedFollowParams where
  ID : UUID
  CreatedAt : Time
  UpdatedAt : Time
  UserID : UUID
  FeedID : UUID
  deriving DecidableEq, Repr

/-- Modelled from the spec: the row `CreateFeedFollow` returns; `handlerFollow`
reads `FeedName` and `UserName`. -/
structure CreateFeedFollowRow where
  ID : UUID
  CreatedAt : Time
  UpdatedAt : Time
  UserID : UUID
  FeedID : UUID
  FeedName : String
  UserName : String
  deriving DecidableEq, Repr

/-- The zero value of `database.CreateFeedFollowRow`. -/
def CreateFeedFollowRow.zero : CreateFeedFollowRow :=
  ⟨⟨0⟩, Time.zero, Time.zero, ⟨0⟩, ⟨0⟩, "", ""⟩

/-- Modelled from the spec: `database.DeleteFeedFollowParams`, the fields
`handlerUnfollow` sets. -/
structure DeleteFeedFollowParams where
  UserID : UUID
  FeedID : UUID
  deriving DecidableEq, Repr

/-- Modelled from the spec: the row `GetFeedFollowsForUser` returns;
`handlerFollowing` reads `FeedName`. -/
structure GetFeedFollowsForUserRow where
  UserID : UUID
  FeedID : UUID
  FeedName : String
  deriving DecidableEq, Repr

/-- Modelled from the spec: `database.GetPostsForUserParams`, the fields
`handlerBrowse` sets (`Limit` is an `int32`). -/
structure GetPostsForUserParams where
  UserID : UUID
  Limit : Int
  deriving DecidableEq, Repr

/-- Modelled from the spec: the row `GetPostsForUser` returns; `handlerBrowse`
reads `PublishedAt`, `Name`, `Title`, `Description` and `Url`. -/
structure GetPostsForUserRow where
  PublishedAt : NullTime
  Name : String
  Title : NullString
  Description : NullString
  Url : String
  deriving DecidableEq, Repr

/-- Modelled from the spec: `database.CreatePostParams`, the fields `scrapeFeeds` sets. -/
structure CreatePostParams where
  ID : UUID
  CreatedAt : Time
  UpdatedAt : Time
  PublishedAt : NullTime
  Title : NullString
  Url : String
  Description : NullString
  FeedID : UUID
  deriving DecidableEq, Repr

/-! ## Records of `main.go` and `config.go` -/

/-- Go `config.Config`. -/
structure Config where
  CurrentUserName : String
  DbUrl : String
  deriving DecidableEq, Repr

/-- Go `RSSItem`. -/
structure RSSItem where
  Title : String
  Link : String
  Description : String
  PubDate : String
  deriving DecidableEq, Repr

/-- The anonymous struct of the field `Channel` of `RSSFeed`. -/
structure RSSChannel where
  Title : String
  Link : String
  Description : String
  Item : List RSSItem
  deriving DecidableEq, Repr

/-- Go `RSSFeed`. -/
structure RSSFeed where
  Channel : RSSChannel
  deriving DecidableEq, Repr

/-- Go `command`. -/
structure command where
  name : String
  args : List String
  deriving DecidableEq, Repr

/-- What the two pointers of Go `state` point to: the store and the configuration. -/
structure state (σ : Type) where
  db : σ
  config : Config

/-- An `http.Response`, reduced to what `io.ReadAll(resp.Body)` yields. -/
structure Response where
  Body : Except Error String

/-! ## The world and the effect monad -/

/-- A call that leaves `main.go`: a query of the store, the HTTP request of
`fetchFeed`, or the write of the configuration file. -/
inductive Call where
  | GetUser (name : String)
  | GetUserById (id : UUID)
  | CreateUser (p : CreateUserParams)
  | DeleteUsers
  | GetUsers
  | GetFeeds
  | CreateFeed (p : CreateFeedParams)
  | GetFeedByUrl (url : String)
  | CreateFeedFollow (p : CreateFeedFollowParams)
  | DeleteFeedFollow (p : DeleteFeedFollowParams)
  | GetFeedFollowsForUser (id : UUID)
  | GetPostsForUser (p : GetPostsForUserParams)
  | GetNextFeedToFetch
  | MarkFeedFetched (id : UUID)
  | CreatePost (p : CreatePostParams)
  | httpDo (url : String)
  | WriteFile (path : String) (data : String)
  deriving DecidableEq, Repr

/-- Everything a run of the program can read or change. `uuids`, `clock` and
`net` count the calls of `uuid.New`, `time.Now` and `client.Do` made so far;
`out` is what was written to standard output; `trace` the calls made so far. -/
structure World (σ : Type) where
  s : state σ
  uuids : Nat
  clock : Nat
  net : Nat
  out : List String
  trace : List Call

/-- How a Go function call ends: it returns a value, the process ends in
`os.Exit code`, it panics, or (for the loop of `handlerAgg`, which has no
exit) it is still running when the ticks it was given are used up. -/
inductive Res (α : Type) where
  | ret (a : α)
  | exit (code : Int)
  | panic (msg : String)
  | running
  deriving DecidableEq, Repr

/-- Computations of the program: a state transformer on the world. -/
def M (σ : Type) (α : Type) : Type := World σ → Res α × World σ

/-- Return without effect. -/
def M.pure {σ α : Type} (a : α) : M σ α := fun w => (Res.ret a, w)

/-- Sequencing: the rest runs only when the first part returns. -/
def M.bind {σ α β : Type} (m : M σ α) (f : α → M σ β) : M σ β := fun w =>
  match m w with
  | (Res.ret a, w1) => f a w1
  | (Res.exit code, w1) => (Res.exit code, w1)
  | (Res.panic msg, w1) => (Res.panic msg, w1)
  | (Res.running, w1) => (Res.running, w1)

instance (σ : Type) : Monad (M σ) where
  pure := M.pure
  bind := M.bind

/-- Go `os.Exit(code)`. -/
def osExit {σ α : Type} (code : Int) : M σ α := fun w => (Res.exit code, w)

/-- A Go panic. -/
def goPanic {σ α : Type} (msg : String) : M σ α := fun w => (Res.panic msg, w)

/-- Go `fmt.Print`/`fmt.Printf` of an already formatted text. -/
def Printf {σ : Type} (text : String) : M σ Unit := fun w =>
  (Res.ret (), { w with out := w.out ++ [text] })

/-- Go `fmt.Println` of an already formatted text. -/
def Println {σ : Type} (text : String) : M σ Unit := Printf (text ++ "\n")

/-- Go `uuid.New()`. -/
def uuidNew {σ : Type} (gen : Nat → UUID) : M σ UUID := fun w =>
  (Res.ret (gen w.uuids), { w with uuids := w.uuids + 1 })

/-- Go `time.Now()`. -/
def timeNow {σ : Type} (now : Nat → Time) : M σ Time := fun w =>
  (Res.ret (now w.clock), { w with clock := w.clock + 1 })

/-- A read of `*s.config`. -/
def readConfig {σ : Type} : M σ Config := fun w => (Res.ret w.s.config, w)

/-- A call of a store operation `op`: recorded in the trace, applied to the store. -/
def query {σ α : Type} (c : Call) (op : σ → α × σ) : M σ α := fun w =>
  let r := op w.s.db
  (Res.ret r.1, { w with s := { w.s with db := r.2 }, trace := w.trace ++ [c] })

/-- The operations `main.go` and `config.go` take from outside: the queries of
`internal/database` (each a function of the store's state), and the functions
of the Go standard library and of `github.com/google/uuid` whose results the
sources do not determine. -/
structure Env (σ : Type) where
  GetUser : String → σ → Except Error User × σ
  GetUserById : UUID → σ → Except Error User × σ
  CreateUser : CreateUserParams → σ → Except Error User × σ
  DeleteUsers : σ → Option Error × σ
  GetUsers : σ → Except Error (List User) × σ
  GetFeeds : σ → Except Error (List Feed) × σ
  CreateFeed : CreateFeedParams → σ → Except Error Feed × σ
  GetFeedByUrl : String → σ → Except Error Feed × σ
  CreateFeedFollow : CreateFeedFollowParams → σ → Except Error CreateFeedFollowRow × σ
  DeleteFeedFollow : DeleteFeedFollowParams → σ → Option Error × σ
  GetFeedFollowsForUser : UUID → σ → Except Error (List GetFeedFollowsForUserRow) × σ
  GetPostsForUser : GetPostsForUserParams → σ → Except Error (List GetPostsForUserRow) × σ
  GetNextFeedToFetch : σ → Except Error Feed × σ
  MarkFeedFetched : UUID → σ → Option Error × σ
  CreatePost : CreatePostParams → σ → Except Error Post × σ
  /-- `uuid.New`, by the number of earlier calls. -/
  uuidGen : Nat → UUID
  /-- `time.Now`, by the number of earlier calls. -/
  now : Nat → Time
  /-- `http.NewRequestWithContext(ctx, "GET", url, nil)`: its error, if any. -/
  NewRequest : String → Option Error
  /-- `client.Do(req)`, by the number of earlier requests and the URL. -/
  Do : Nat → String → Except Error Response
  /-- `xml.Unmarshal(data, &rssFeed)` on an empty `RSSFeed`. -/
  xmlUnmarshal : String → Except Error RSSFeed
  /-- `html.UnescapeString`. -/
  UnescapeString : String → String
  /-- `time.Parse(time.RFC3339, s)`. -/
  ParseRFC3339 : String → Except Error Time
  /-- `time.ParseDuration`, in nanoseconds. -/
  ParseDuration : String → Except Error Int
  /-- `strconv.Atoi`. -/
  Atoi : String → Except Error Int
  /-- `os.UserHomeDir`. -/
  UserHomeDir : Except Error String
  /-- `os.ReadFile`. -/
  ReadFile : String → Except Error String
  /-- `os.WriteFile(path, data, 0644)`: its error, if any. -/
  WriteFile : String → String → Option Error
  /-- `json.Unmarshal(data, &cfg)` on an empty `Config`. -/
  jsonUnmarshal : String → Except Error Config
  /-- `json.Marshal(cfg)`. -/
  jsonMarshal : Config → Except Error String
  /-- `sql.Open("postgres", url)`: its error, if any. -/
  sqlOpen : String → Option Error
  /-- Formatting by `fmt` of a `time.Duration` under `%s`. -/
  fmtDuration : Int → String
  /-- The method `Format("Mon Jan 2")` of `time.Time`. -/
  fmtMonJan2 : Time → String
  /-- Formatting by `fmt.Println` of a `database.User`. -/
  fmtUser : User → String
  /-- Formatting by `fmt.Println` of a `database.Feed`. -/
  fmtFeed : Feed → String
  /-- Formatting by `fmt.Println` of a `database.Post`. -/
  fmtPost : Post → String
  /-- Formatting by `fmt.Println` of a `database.CreateFeedFollowRow`. -/
  fmtFollow : CreateFeedFollowRow → String

/-! ## Command router (`commands.register`, `commands.run`) -/

/-- Go `func(*state, command) error`; the `*state` is the field `s` of the world. -/
abbrev Handler (σ : Type) : Type := command → M σ (Option Error)

/-- Go `func(s *state, cmd command, user database.User) error`. -/
abbrev UserHandler (σ : Type) : Type := command → User → M σ (Option Error)

/-- Go `commands`: the map `cmds`, as an association list with one entry per key. -/
structure commands (σ : Type) where
  cmds : List (String × Handler σ)

/-- Go `make(map[string]func(*state, command) error)`. -/
def commands.empty (σ : Type) : commands σ := ⟨[]⟩

/-- Go `c.cmds[name] = f`. -/
def commands.register {σ : Type} (c : commands σ) (name : String) (f : Handler σ) : commands σ :=
  ⟨(name, f) :: c.cmds.filter (fun p => p.1 != name)⟩

/-- The error of `commands.run` for a name that has no handler. -/
def notFound (name : String) : Error :=
  Error.errorf ("command '" ++ name ++ "' not found")

/-- Go `commands.run`. -/
def commands.run {σ : Type} (c : commands σ) (cmd : command) : M σ (Option Error) :=
  match c.cmds.lookup cmd.name with
  | none => pure (some (notFound cmd.name))
  | some foundCmd => do
    let err ← foundCmd cmd
    match err with
    | some e => pure (some e)
    | none => pure none

/-! ## Auth middleware -/

/-- Go `middlewareLoggedIn`. -/
def middlewareLoggedIn {σ : Type} (env : Env σ) (handler : UserHandler σ) : Handler σ :=
  fun cmd => do
    let config ← readConfig
    let r ← query (Call.GetUser config.CurrentUserName) (env.GetUser config.CurrentUserName)
    match r with
    | .error err => pure (some err)
    | .ok user => handler cmd user

/-! ## Configuration (`internal/config`) -/

/-- Go `configFileName`. -/
def configFileName : String := ".gatorconfig.json"

/-- Go `getConfigFilePath`. -/
def getConfigFilePath {σ : Type} (env : Env σ) : Except Error String :=
  match env.UserHomeDir with
  | .error err => .error err
  | .ok homeDir => .ok (homeDir ++ "/" ++ configFileName)

/-- Go `config.Read`. -/
def Read {σ : Type} (env : Env σ) : Except Error Config :=
  match getConfigFilePath env with
  | .error err => .error err
  | .ok path =>
    match env.ReadFile path with
    | .error _ => .error (Error.errorf ("error reading file '" ++ path ++ "'"))
    | .ok data =>
      match env.jsonUnmarshal data with
      | .error _ => .error (Error.errorf "error unmarshaling data")
      | .ok cfg => .ok cfg

/-- Go `os.WriteFile(path, data, 0644)`: recorded in the trace. -/
def osWriteFile {σ : Type} (env : Env σ) (path data : String) : M σ (Option Error) := fun w =>
  (Res.ret (env.WriteFile path data), { w with trace := w.trace ++ [Call.WriteFile path data] })

/-- Go `write` of `config.go`, on the configuration of the world. -/
def write {σ : Type} (env : Env σ) : M σ (Option Error) := do
  let cfg ← readConfig
  match env.jsonMarshal cfg with
  | .error err => pure (some err)
  | .ok data =>
    match getConfigFilePath env with
    | .error err => pure (some err)
    | .ok path => do
      let err ← osWriteFile env path data
      match err with
      | some _ => pure (some (Error.errorf "error: writing config file failed"))
      | none => pure none

/-- Go `(*Config).SetUser`: sets the name, then writes the file; the error of
`write` is dropped. -/
def SetUser {σ : Type} (env : Env σ) (userName : String) : M σ Unit := do
  (fun w => (Res.ret (),
    { w with s := { w.s with config := { w.s.config with CurrentUserName := userName } } }) : M σ Unit)
  let _ ← write env
  pure ()

/-! ## Feed fetcher -/

/-- The body of the `range` loop of `DecodeEscapedStrings`, on the loop
variable `item`, which holds a copy of the element of the slice. -/
def decodeItemCopy (unescape : String → String) (item : RSSItem) : RSSItem :=
  let item := { item with Title := unescape item.Title }
  let item := { item with Description := unescape item.Description }
  item

/-- Go `(*RSSFeed).DecodeEscapedStrings`. The receiver is a pointer, so the two
assignments to the channel change the feed. The loop
`for _, item := range rssFeed.Channel.Item` assigns to its variable `item`;
the state of the loop is the feed and that variable, and the feed is what
remains afterwards. -/
def DecodeEscapedStrings (unescape : String → String) (rssFeed : RSSFeed) : RSSFeed :=
  let rssFeed : RSSFeed :=
    { rssFeed with Channel := { rssFeed.Channel with Title := unescape rssFeed.Channel.Title } }
  let rssFeed : RSSFeed :=
    { rssFeed with Channel :=
        { rssFeed.Channel with Description := unescape rssFeed.Channel.Description } }
  let loop : RSSFeed × Option RSSItem :=
    rssFeed.Channel.Item.foldl
      (fun st item => (st.1, some (decodeItemCopy unescape item))) (rssFeed, none)
  loop.1

/-- Go `client.Do(req)`: recorded in the trace. -/
def clientDo {σ : Type} (env : Env σ) (url : String) : M σ (Except Error Response) := fun w =>
  (Res.ret (env.Do w.net url), { w with net := w.net + 1, trace := w.trace ++ [Call.httpDo url] })

/-- Go `fetchFeed`. -/
def fetchFeed {σ : Type} (env : Env σ) (feedUrl : String) : M σ (Except Error RSSFeed) :=
  match env.NewRequest feedUrl with
  | some err => pure (.error err)
  | none => do
    let r ← clientDo env feedUrl
    match r with
    | .error err => pure (.error err)
    | .ok resp =>
      match resp.Body with
      | .error err => pure (.error err)
      | .ok data =>
        match env.xmlUnmarshal data with
        | .error err => pure (.error err)
        | .ok rssFeed => pure (.ok (DecodeEscapedStrings env.UnescapeString rssFeed))

/-! ## Ingestion cycle -/

/-- Go `stringtoSqlNullTime`. -/
def stringtoSqlNullTime (parse : String → Except Error Time) (s : String) : NullTime :=
  if s = "" then
    { Time := Time.zero, Valid := false }
  else
    match parse s with
    | .error _ => { Time := Time.zero, Valid := false }
    | .ok t => { Time := t, Valid := true }

/-- Go `stringToSqlNullString`. -/
def stringToSqlNullString (s : String) : NullString :=
  if s = "" then
    { String := "", Valid := false }
  else
    { String := s, Valid := true }

/-- The `database.CreatePostParams` literal of `scrapeFeeds`, given the results
of its calls of `uuid.New` and `time.Now`. -/
def postParams {σ : Type} (env : Env σ) (feed : Feed) (f : RSSItem)
    (id : UUID) (createdAt updatedAt : Time) : CreatePostParams :=
  { ID := id
    CreatedAt := createdAt
    UpdatedAt := updatedAt
    PublishedAt := stringtoSqlNullTime env.ParseRFC3339 f.PubDate
    Title := stringToSqlNullString f.Title
    Url := f.Link
    Description := stringToSqlNullString f.Description
    FeedID := feed.ID }

/-- The body of the loop over the items in `scrapeFeeds`. -/
def savePost {σ : Type} (env : Env σ) (feed : Feed) (f : RSSItem) : M σ Unit := do
  let id ← uuidNew env.uuidGen
  let createdAt ← timeNow env.now
  let updatedAt ← timeNow env.now
  let params := postParams env feed f id createdAt updatedAt
  let r ← query (Call.CreatePost params) (env.CreatePost params)
  match r with
  | .error err => do
    Println "error saving post!!!"
    Println err.Error
    Println (env.fmtPost Post.zero)
  | .ok p =>
    Printf ("\nCreated post: " ++ p.Url ++ "\n")

/-- A Go `for _, x := range xs` loop whose body has no `break` or `return`. -/
def forRange {σ α : Type} (xs : List α) (body : α → M σ Unit) : M σ Unit :=
  match xs with
  | [] => pure ()
  | x :: rest => do
    body x
    forRange rest body

/-- Go `scrapeFeeds`. -/
def scrapeFeeds {σ : Type} (env : Env σ) : M σ (Option Error) := do
  let r ← query Call.GetNextFeedToFetch env.GetNextFeedToFetch
  match r with
  | .error err => pure (some err)
  | .ok feed => do
    Println "*****************************"
    Printf ("Next Feed to fetch: " ++ feed.Url ++ "\n")
    Println "*****************************"
    let err ← query (Call.MarkFeedFetched feed.ID) (env.MarkFeedFetched feed.ID)
    match err with
    | some err => pure (some err)
    | none => do
      let r ← fetchFeed env feed.Url
      match r with
      | .error err => pure (some err)
      | .ok rssFeed => do
        forRange rssFeed.Channel.Item (savePost env feed)
        pure none

/-! ## Scheduler -/

/-- Go `time.NewTicker(d)`: it panics unless `d` is positive. -/
def NewTicker {σ : Type} (d : Int) : M σ Unit :=
  if d ≤ 0 then goPanic "non-positive interval for NewTicker" else pure ()

/-- One pass of the body of the loop of `handlerAgg`. -/
def aggBody {σ : Type} (env : Env σ) : M σ Unit := do
  let err ← scrapeFeeds env
  match err with
  | some err => do
    Printf "\nerror: \n"
    Println err.Error
  | none => pure ()

/-- The loop `for ; ; <-ticker.C` of `handlerAgg`, given `ticks` ticks of the
ticker: the body runs, then the loop waits for a tick, and so on; with no tick
left the loop is still running, blocked on the channel. -/
def aggLoop {σ : Type} (env : Env σ) : Nat → M σ (Option Error)
  | 0 => do
    aggBody env
    (fun w => (Res.running, w) : M σ (Option Error))
  | ticks + 1 => do
    aggBody env
    aggLoop env ticks

/-- Go `cmd.args[i]`: a panic when the index is out of range. -/
def index {σ : Type} (xs : List String) (i : Nat) : M σ String :=
  match xs[i]? with
  | some x => pure x
  | none => goPanic "index out of range"

/-- Go `handlerAgg`, given `ticks` ticks of its ticker. -/
def handlerAgg {σ : Type} (env : Env σ) (ticks : Nat) : Handler σ := fun cmd =>
  if cmd.args.length ≠ 1 then
    pure (some (Error.errorf "agg handler expects a single argument, the time between request"))
  else do
    let arg ← index cmd.args 0
    match env.ParseDuration arg with
    | .error err => pure (some err)
    | .ok timeBetweenReqs => do
      Printf ("\nCollecting feeds every " ++ env.fmtDuration timeBetweenReqs ++ "\n")
      NewTicker timeBetweenReqs
      aggLoop env ticks

/-! ## Handlers -/

/-- Go `handlerBrowse`. -/
def handlerBrowse {σ : Type} (env : Env σ) : UserHandler σ := fun cmd user =>
  let query2 (limit : Int) : M σ (Option Error) := do
    let params : GetPostsForUserParams := { UserID := user.ID, Limit := toInt32 limit }
    let r ← query (Call.GetPostsForUser params) (env.GetPostsForUser params)
    match r with
    | .error err => pure (some (Error.wrapf "couldn't get posts for user: " err))
    | .ok posts => do
      Printf ("Found " ++ toString posts.length ++ " posts for user " ++ user.Name ++ ":\n")
      forRange posts (fun post => do
        Printf (env.fmtMonJan2 post.PublishedAt.Time ++ " from " ++ post.Name ++ "\n")
        Printf ("--- " ++ post.Title.String ++ " ---\n")
        Printf ("    " ++ post.Description.String ++ "\n")
        Printf ("Link: " ++ post.Url ++ "\n")
        Println "=====================================")
      pure none
  if cmd.args.length = 1 then do
    let arg ← index cmd.args 0
    match env.Atoi arg with
    | .ok specifiedLimit => query2 specifiedLimit
    | .error err => pure (some (Error.wrapf "invalid limit: " err))
  else
    query2 2

/-- Go `handlerUnfollow`. -/
def handlerUnfollow {σ : Type} (env : Env σ) : UserHandler σ := fun cmd user =>
  if cmd.args.length ≠ 1 then
    pure (some (Error.errorf "follow handler expects a single argument, the URL"))
  else do
    let url ← index cmd.args 0
    let r ← query (Call.GetFeedByUrl url) (env.GetFeedByUrl url)
    match r with
    | .error err => pure (some err)
    | .ok feed => do
      let deleteParams : DeleteFeedFollowParams := { UserID := user.ID, FeedID := feed.ID }
      let err ← query (Call.DeleteFeedFollow deleteParams) (env.DeleteFeedFollow deleteParams)
      match err with
      | some err => pure (some err)
      | none => pure none

/-- Go `handlerFollow`. -/
def handlerFollow {σ : Type} (env : Env σ) : UserHandler σ := fun cmd user =>
  if cmd.args.length ≠ 1 then
    pure (some (Error.errorf "follow handler expects a single argument, the URL"))
  else do
    let url ← index cmd.args 0
    let r ← query (Call.GetFeedByUrl url) (env.GetFeedByUrl url)
    match r with
    | .error err => pure (some err)
    | .ok feed => do
      let id ← uuidNew env.uuidGen
      let createdAt ← timeNow env.now
      let updatedAt ← timeNow env.now
      let followParams : CreateFeedFollowParams :=
        { ID := id, CreatedAt := createdAt, UpdatedAt := updatedAt,
          UserID := user.ID, FeedID := feed.ID }
      let r ← query (Call.CreateFeedFollow followParams) (env.CreateFeedFollow followParams)
      match r with
      | .error err => pure (some err)
      | .ok feedCreated => do
        Println feedCreated.FeedName
        Println feedCreated.UserName
        Println ""
        pure none

/-- Go `handlerFollowing`. -/
def handlerFollowing {σ : Type} (env : Env σ) : UserHandler σ := fun _cmd user => do
  let r ← query (Call.GetFeedFollowsForUser user.ID) (env.GetFeedFollowsForUser user.ID)
  match r with
  | .error err => pure (some err)
  | .ok feeds => do
    forRange feeds (fun f => Println f.FeedName)
    Println ""
    pure none

/-- The zero value of `database.User`. -/
def User.zero : User := ⟨⟨0⟩, Time.zero, Time.zero, ""⟩

/-- Go `handlerLogin`. -/
def handlerLogin {σ : Type} (env : Env σ) : Handler σ := fun cmd =>
  if cmd.args.length ≠ 1 then
    pure (some (Error.errorf "long handler expects a single argument, the username"))
  else do
    let userName ← index cmd.args 0
    let r ← query (Call.GetUser userName) (env.GetUser userName)
    match r with
    | .error err =>
      if err = Error.ErrNoRows then do
        Println "User DON'T exists"
        Println (env.fmtUser User.zero)
        osExit 1
      else pure ()
    | .ok _ => pure ()
    SetUser env userName
    Printf ("user '" ++ userName ++ "' has been set\t")
    pure none

/-- Go `handlerRegister`. -/
def handlerRegister {σ : Type} (env : Env σ) : Handler σ := fun cmd =>
  if cmd.args.length ≠ 1 then
    pure (some (Error.errorf "register handler expects a single argument, the username"))
  else do
    let userName ← index cmd.args 0
    let id ← uuidNew env.uuidGen
    let createdAt ← timeNow env.now
    let updatedAt ← timeNow env.now
    let userParams : CreateUserParams :=
      { ID := id, CreatedAt := createdAt, UpdatedAt := updatedAt, Name := userName }
    let r ← query (Call.GetUser userName) (env.GetUser userName)
    match r with
    | .error err =>
      if err ≠ Error.ErrNoRows then do
        Println "User already exists"
        Println (env.fmtUser User.zero)
        osExit 1
      else pure ()
    | .ok _ => pure ()
    let r ← query (Call.CreateUser userParams) (env.CreateUser userParams)
    match r with
    | .error err => do
      Println "error: inserting user in DB failed"
      Println err.Error
      osExit (-1)
    | .ok user => do
      SetUser env user.Name
      Printf ("\nUser '" ++ user.Name ++ "' has been created.\n")
      Println (env.fmtUser user)
      pure none

/-- Go `handlerReset`. -/
def handlerReset {σ : Type} (env : Env σ) : Handler σ := fun _cmd => do
  let err ← query Call.DeleteUsers env.DeleteUsers
  match err with
  | some err => pure (some err)
  | none => do
    Println "Reset command was execute successuly."
    pure none

/-- Go `handlerGetUsers`. -/
def handlerGetUsers {σ : Type} (env : Env σ) : Handler σ := fun _cmd => do
  let r ← query Call.GetUsers env.GetUsers
  match r with
  | .error err => pure (some err)
  | .ok users => do
    forRange users (fun u => do
      let config ← readConfig
      if config.CurrentUserName = u.Name then
        Printf ("* " ++ u.Name ++ " (current) \n")
      else
        Printf ("* " ++ u.Name ++ "\n"))
    pure none

/-- Go `handlerAddFeed`. -/
def handlerAddFeed {σ : Type} (env : Env σ) : UserHandler σ := fun cmd user =>
  if cmd.args.length ≠ 2 then
    pure (some (Error.errorf "addfeed handler expects two arguments, the username and URL"))
  else do
    let feedName ← index cmd.args 0
    let feedUrl ← index cmd.args 1
    let id ← uuidNew env.uuidGen
    let createdAt ← timeNow env.now
    let updatedAt ← timeNow env.now
    let feedParams : CreateFeedParams :=
      { ID := id, CreatedAt := createdAt, UpdatedAt := updatedAt,
        Name := feedName, Url := feedUrl, UserID := user.ID }
    let r ← query (Call.CreateFeed feedParams) (env.CreateFeed feedParams)
    match r with
    | .error _ => pure (some (Error.errorf "error: failed to create feed"))
    | .ok feed => do
      let id ← uuidNew env.uuidGen
      let createdAt ← timeNow env.now
      let updatedAt ← timeNow env.now
      let followParams : CreateFeedFollowParams :=
        { ID := id, CreatedAt := createdAt, UpdatedAt := updatedAt,
          UserID := user.ID, FeedID := feed.ID }
      let r ← query (Call.CreateFeedFollow followParams) (env.CreateFeedFollow followParams)
      match r with
      | .error err => do
        Println (env.fmtFollow CreateFeedFollowRow.zero)
        pure (some err)
      | .ok _ => do
        Println (env.fmtFeed feed)
        pure none

/-- Go `handlerGetFeeds`. -/
def handlerGetFeeds {σ : Type} (env : Env σ) : Handler σ := fun _cmd => do
  let r ← query Call.GetFeeds env.GetFeeds
  match r with
  | .error err => pure (some err)
  | .ok feeds => do
    let getUserName (userId : UUID) : M σ String := do
      let u ← query (Call.GetUserById userId) (env.GetUserById userId)
      match u with
      | .ok u => pure u.Name
      | .error _ => pure User.zero.Name
    forRange feeds (fun f => do
      Println f.Name
      Println f.Url
      let name ← getUserName f.UserID
      Println name)
    pure none

/-! ## The program -/

/-- The body every branch of the `if` chain of `main` has: run the command; on
an error print it and exit with `-1`. -/
def runOrExit {σ : Type} (c : commands σ) (cmdName : String) (cmdArgs : List String) : M σ Unit := do
  let err ← c.run { name := cmdName, args := cmdArgs }
  match err with
  | some err => do
    Println "Error executing command"
    Println err.Error
    osExit (-1)
  | none => pure ()

/-- The dispatch table `main` builds with its eleven calls of `register`. -/
def mainCommands {σ : Type} (env : Env σ) (ticks : Nat) : commands σ :=
  let commands := commands.empty σ
  let commands := commands.register "login" (handlerLogin env)
  let commands := commands.register "register" (handlerRegister env)
  let commands := commands.register "reset" (handlerReset env)
  let commands := commands.register "users" (handlerGetUsers env)
  let commands := commands.register "agg" (handlerAgg env ticks)
  let commands := commands.register "addfeed" (middlewareLoggedIn env (handlerAddFeed env))
  let commands := commands.register "feeds" (handlerGetFeeds env)
  let commands := commands.register "follow" (middlewareLoggedIn env (handlerFollow env))
  let commands := commands.register "following" (middlewareLoggedIn env (handlerFollowing env))
  let commands := commands.register "unfollow" (middlewareLoggedIn env (handlerUnfollow env))
  let commands := commands.register "browser" (middlewareLoggedIn env (handlerBrowse env))
  commands

/-- Go `main`, on the command line `args` (`os.Args`, the program name first),
with `ticks` ticks for the ticker of `agg`. A return of `main` ends the process
with status 0. -/
def main {σ : Type} (env : Env σ) (ticks : Nat) (args : List String) : M σ Unit :=
  match Read env with
  | .error _ => do
    Println "Error reading configuration file!"
    osExit (-1)
  | .ok cfg =>
    match env.sqlOpen cfg.DbUrl with
    | some _ => do
      Println "error: failed to open database"
      osExit (-1)
    | none => do
      (fun w => (Res.ret (), { w with s := { w.s with config := cfg } }) : M σ Unit)
      let commands := mainCommands env ticks
      if args.length < 2 then do
        Println "error: Less than 2 arguments provided"
        osExit (-1)
      else do
        let cmdName ← index args 1
        let cmdArgs := args.drop 2
        if cmdName = "login" then runOrExit commands cmdName cmdArgs
        else if cmdName = "register" then runOrExit commands cmdName cmdArgs
        else if cmdName = "reset" then runOrExit commands cmdName cmdArgs
        else if cmdName = "users" then runOrExit commands cmdName cmdArgs
        else if cmdName = "agg" then runOrExit commands cmdName cmdArgs
        else if cmdName = "addfeed" then runOrExit commands cmdName cmdArgs
        else if cmdName = "feeds" then runOrExit commands cmdName cmdArgs
        else if cmdName = "follow" then runOrExit commands cmdName cmdArgs
        else if cmdName = "following" then runOrExit commands cmdName cmdArgs
        else if cmdName = "unfollow" then runOrExit commands cmdName cmdArgs
        else if cmdName = "browser" then runOrExit commands cmdName cmdArgs
        else pure ()

/-- The exit status of the process for a result of `main`: 0 when `main`
returns, the low eight bits of the code given to `os.Exit`, 2 after a panic;
none while the program is still running. -/
def exitStatus (r : Res Unit) : Option Int :=
  match r with
  | .ret _ => some 0
  | .exit code => some (code % 256)
  | .panic _ => some 2
  | .running => none

/-- The command names `main` has a branch for. -/
def knownCommands : List String :=
  ["login", "register", "reset", "users", "agg", "addfeed", "feeds", "follow", "following",
    "unfollow", "browser"]

/-- The number of positional arguments of the commands whose handler checks
that number. -/
def requiredArgs (name : String) : Option Nat :=
  if name = "login" then some 1
  else if name = "register" then some 1
  else if name = "agg" then some 1
  else if name = "addfeed" then some 2
  else if name = "follow" then some 1
  else if name = "unfollow" then some 1
  else none

/-- Whether a command whose handler checks the number of arguments is
registered behind `middlewareLoggedIn`. -/
def behindLogin (name : String) : Bool :=
  name = "addfeed" ∨ name = "follow" ∨ name = "unfollow"

/-! ## What a cycle is expected to do -/

/-- The text `scrapeFeeds` prints between selecting a feed and marking it. -/
def announcement (feed : Feed) : List String :=
  ["*****************************\n", "Next Feed to fetch: " ++ feed.Url ++ "\n",
    "*****************************\n"]

/-- The world in which `scrapeFeeds` calls `fetchFeed`: `feed` has been selected
and announced, and `MarkFeedFetched` has been applied to its id. -/
def afterMark {σ : Type} (env : Env σ) (w : World σ) (feed : Feed) : World σ :=
  { w with
    s := { w.s with
      db := (env.MarkFeedFetched feed.ID (env.GetNextFeedToFetch w.s.db).2).2 }
    out := w.out ++ announcement feed
    trace := w.trace ++ [Call.GetNextFeedToFetch, Call.MarkFeedFetched feed.ID] }

/-- The insertions expected for the items of a feed, in their order: one
`CreatePost` per item, the k-th with the k-th identity and the next two
readings of the clock. -/
def expectedPostCalls {σ : Type} (env : Env σ) (feed : Feed) :
    List RSSItem → Nat → Nat → List Call
  | [], _, _ => []
  | f :: rest, uuids, clock =>
    Call.CreatePost
        (postParams env feed f (env.uuidGen uuids) (env.now clock) (env.now (clock + 1)))
      :: expectedPostCalls env feed rest (uuids + 1) (clock + 2)

/-- The parameters of the `CreatePost` calls of a trace, in order. -/
def createPostCalls (tr : List Call) : List CreatePostParams :=
  tr.filterMap (fun c =>
    match c with
    | Call.CreatePost p => some p
    | _ => none)

/-- The calls made between the world `w` and the later world `wf`. -/
def callsSince {σ : Type} (w wf : World σ) : List Call :=
  wf.trace.drop w.trace.length

/-! ## A sample environment, for evaluating the program on concrete inputs -/

/-- Modelled from the spec: the store behind `internal/database`, in memory:
users with unique names, feeds and posts with unique URLs, follows unique per
pair of user and feed; `clock` is the store's own time. -/
structure MemDb where
  users : List User
  feeds : List Feed
  posts : List Post
  follows : List CreateFeedFollowRow
  clock : Nat
  deriving DecidableEq, Repr

/-- The error of the sample store for a violated uniqueness constraint. -/
def uniqueViolation : Error := Error.lib "pq: duplicate key value violates unique constraint"

/-- Modelled from the spec: `getUserByName(name) -> User | NotFound`. -/
def MemDb.GetUser (name : String) (db : MemDb) : Except Error User × MemDb :=
  match db.users.find? (fun u => u.Name == name) with
  | some u => (.ok u, db)
  | none => (.error Error.ErrNoRows, db)

/-- Modelled from the spec: the lookup of a user by identity. -/
def MemDb.GetUserById (id : UUID) (db : MemDb) : Except Error User × MemDb :=
  match db.users.find? (fun u => u.ID == id) with
  | some u => (.ok u, db)
  | none => (.error Error.ErrNoRows, db)

/-- Modelled from the spec: insertion of a user; the display name is unique. -/
def MemDb.CreateUser (p : CreateUserParams) (db : MemDb) : Except Error User × MemDb :=
  if db.users.any (fun u => u.Name == p.Name) then (.error uniqueViolation, db)
  else
    let u : User := ⟨p.ID, p.CreatedAt, p.UpdatedAt, p.Name⟩
    (.ok u, { db with users := db.users ++ [u] })

/-- Modelled from the spec: removal of all users, and of all they own. -/
def MemDb.DeleteUsers (db : MemDb) : Option Error × MemDb :=
  (none, { db with users := [], feeds := [], posts := [], follows := [] })

/-- Modelled from the spec: the fold step of the choice of the next feed: a
never-fetched feed comes before a fetched one, an older stamp before a newer. -/
def olderFeed (best : Option Feed) (f : Feed) : Option Feed :=
  match best with
  | none => some f
  | some b =>
    if b.LastFetchedAt.Valid = false then some b
    else if f.LastFetchedAt.Valid = false then some f
    else if f.LastFetchedAt.Time.sec < b.LastFetchedAt.Time.sec then some f
    else some b

/-- Modelled from the spec: `getNextFeedToFetch() -> Feed | NotFound`, the
feed with the oldest last-fetched stamp, nulls first. -/
def MemDb.GetNextFeedToFetch (db : MemDb) : Except Error Feed × MemDb :=
  match db.feeds.foldl olderFeed none with
  | some f => (.ok f, db)
  | none => (.error Error.ErrNoRows, db)

/-- Modelled from the spec: `markFeedFetched(feedId, timestamp) -> ok | error`,
with the time of the store as the stamp. -/
def MemDb.MarkFeedFetched (id : UUID) (db : MemDb) : Option Error × MemDb :=
  (none,
    { db with
      feeds := db.feeds.map (fun f =>
        if f.ID = id then { f with LastFetchedAt := ⟨⟨db.clock, 0, 0⟩, true⟩ } else f)
      clock := db.clock + 1 })

/-- Modelled from the spec: `createPost(...) -> Post | UniqueViolation | error`;
the URL is unique across posts. -/
def MemDb.CreatePost (p : CreatePostParams) (db : MemDb) : Except Error Post × MemDb :=
  if db.posts.any (fun q => q.Url == p.Url) then (.error uniqueViolation, db)
  else
    let q : Post :=
      ⟨p.ID, p.CreatedAt, p.UpdatedAt, p.PublishedAt, p.Title, p.Url, p.Description, p.FeedID⟩
    (.ok q, { db with posts := db.posts ++ [q] })

/-- Modelled from the spec: insertion of a feed; the URL is unique across feeds. -/
def MemDb.CreateFeed (p : CreateFeedParams) (db : MemDb) : Except Error Feed × MemDb :=
  if db.feeds.any (fun f => f.Url == p.Url) then (.error uniqueViolation, db)
  else
    let f : Feed := ⟨p.ID, p.CreatedAt, p.UpdatedAt, p.Name, p.Url, p.UserID, ⟨Time.zero, false⟩⟩
    (.ok f, { db with feeds := db.feeds ++ [f] })

/-- Modelled from the spec: `getFeedByUrl(url) -> Feed | NotFound`. -/
def MemDb.GetFeedByUrl (url : String) (db : MemDb) : Except Error Feed × MemDb :=
  match db.feeds.find? (fun f => f.Url == url) with
  | some f => (.ok f, db)
  | none => (.error Error.ErrNoRows, db)

/-- Modelled from the spec: `createFeedFollow(...) -> FeedFollow | error`,
unique per pair of user and feed. -/
def MemDb.CreateFeedFollow (p : CreateFeedFollowParams) (db : MemDb) :
    Except Error CreateFeedFollowRow × MemDb :=
  match db.users.find? (fun u => u.ID == p.UserID), db.feeds.find? (fun f => f.ID == p.FeedID) with
  | some u, some f =>
    if db.follows.any (fun r => r.UserID == p.UserID && r.FeedID == p.FeedID) then
      (.error uniqueViolation, db)
    else
      let r : CreateFeedFollowRow :=
        ⟨p.ID, p.CreatedAt, p.UpdatedAt, p.UserID, p.FeedID, f.Name, u.Name⟩
      (.ok r, { db with follows := db.follows ++ [r] })
  | _, _ => (.error (Error.lib "pq: violates foreign key constraint"), db)

/-- Modelled from the spec: `deleteFeedFollow(userId, feedId) -> ok | error`. -/
def MemDb.DeleteFeedFollow (p : DeleteFeedFollowParams) (db : MemDb) : Option Error × MemDb :=
  (none,
    { db with
      follows := db.follows.filter (fun r => !(r.UserID == p.UserID && r.FeedID == p.FeedID)) })

/-- Modelled from the spec: `getFeedFollowsForUser(userId) -> sequence of FeedFollow`. -/
def MemDb.GetFeedFollowsForUser (id : UUID) (db : MemDb) :
    Except Error (List GetFeedFollowsForUserRow) × MemDb :=
  (.ok ((db.follows.filter (fun r => r.UserID == id)).map
    (fun r => ⟨r.UserID, r.FeedID, r.FeedName⟩)), db)

/-- Modelled from the spec: insertion of a row by publication time, newest first. -/
def insertNewestFirst (r : GetPostsForUserRow) : List GetPostsForUserRow → List GetPostsForUserRow
  | [] => [r]
  | x :: rest =>
    if x.PublishedAt.Time.sec < r.PublishedAt.Time.sec then r :: x :: rest
    else x :: insertNewestFirst r rest

/-- Modelled from the spec: `getPostsForUser(userId, limit) -> ordered sequence
of Post` (most recent first), over the feeds the user follows; a negative
limit is an error of the store. -/
def MemDb.GetPostsForUser (p : GetPostsForUserParams) (db : MemDb) :
    Except Error (List GetPostsForUserRow) × MemDb :=
  if p.Limit < 0 then (.error (Error.lib "pq: LIMIT must not be negative"), db)
  else
    let followed := (db.follows.filter (fun r => r.UserID == p.UserID))
    let rows := db.posts.filterMap (fun q =>
      match followed.find? (fun r => r.FeedID == q.FeedID) with
      | some r => some (⟨q.PublishedAt, r.FeedName, q.Title, q.Description, q.Url⟩ : GetPostsForUserRow)
      | none => none)
    (.ok ((rows.foldr insertNewestFirst []).take p.Limit.toNat), db)

/-- The value of a decimal digit. -/
def digitVal (c : Char) : Option Nat :=
  if c.isDigit then some (c.toNat - 48) else none

/-- The value of a non-empty run of decimal digits, given the value so far. -/
def digitsVal : List Char → Nat → Option Nat
  | [], acc => some acc
  | c :: rest, acc =>
    match digitVal c with
    | some d => digitsVal rest (acc * 10 + d)
    | none => none

/-- A sample of `strconv.Atoi`: an optional sign and decimal digits, within 64 bits. -/
def sampleAtoi (s : String) : Except Error Int :=
  let fail : Except Error Int := .error (Error.lib ("strconv.Atoi: parsing: invalid syntax"))
  let range : Except Error Int := .error (Error.lib ("strconv.Atoi: parsing: value out of range"))
  let body (neg : Bool) (cs : List Char) : Except Error Int :=
    if cs = [] then fail
    else
      match digitsVal cs 0 with
      | none => fail
      | some v =>
        let x : Int := if neg then -(v : Int) else (v : Int)
        if x < -(2 ^ 63) ∨ 2 ^ 63 ≤ x then range else .ok x
  match s.data with
  | '-' :: cs => body true cs
  | '+' :: cs => body false cs
  | cs => body false cs

/-- The leading decimal digits of a text, and what follows them. -/
def takeDigits : List Char → List Char × List Char
  | [] => ([], [])
  | c :: rest =>
    if c.isDigit then ((c :: (takeDigits rest).1), (takeDigits rest).2)
    else ([], c :: rest)

/-- The unit of a duration at the head of a text, in nanoseconds, and the rest. -/
def durationUnit : List Char → Option (Nat × List Char)
  | 'n' :: 's' :: rest => some (1, rest)
  | 'u' :: 's' :: rest => some (1000, rest)
  | 'm' :: 's' :: rest => some (1000000, rest)
  | 's' :: rest => some (1000000000, rest)
  | 'm' :: rest => some (60000000000, rest)
  | 'h' :: rest => some (3600000000000, rest)
  | _ => none

/-- The sum of groups of digits and unit, such as `1h30m`; `fuel` bounds the
number of groups. -/
def durationGroups : Nat → List Char → Option Nat
  | 0, _ => none
  | fuel + 1, cs =>
    let ds := takeDigits cs
    if ds.1 = [] then none
    else
      match digitsVal ds.1 0, durationUnit ds.2 with
      | some v, some (u, rest) =>
        if rest = [] then some (v * u)
        else (durationGroups fuel rest).map (fun more => v * u + more)
      | _, _ => none

/-- A sample of `time.ParseDuration`, without fractions: an optional sign, then
`0` or groups of digits and unit, within 64 bits. -/
def sampleParseDuration (s : String) : Except Error Int :=
  let fail : Except Error Int := .error (Error.lib "time: invalid duration")
  let body (neg : Bool) (cs : List Char) : Except Error Int :=
    if cs = ['0'] then .ok 0
    else
      match durationGroups cs.length cs with
      | none => fail
      | some v =>
        let x : Int := if neg then -(v : Int) else (v : Int)
        if x < -(2 ^ 63) ∨ 2 ^ 63 ≤ x then fail else .ok x
  match s.data with
  | '-' :: cs => body true cs
  | '+' :: cs => body false cs
  | cs => body false cs

/-- Days of a month of the Gregorian calendar. -/
def daysIn (y m : Nat) : Nat :=
  if m = 2 then (if (y % 4 = 0 ∧ y % 100 ≠ 0) ∨ y % 400 = 0 then 29 else 28)
  else if m = 4 ∨ m = 6 ∨ m = 9 ∨ m = 11 then 30
  else 31

/-- Days from 1 January of year 1 to the given date of the Gregorian calendar. -/
def daysFromCivil (y m d : Nat) : Int :=
  let y1 : Nat := if m ≤ 2 then y - 1 else y
  let era : Nat := y1 / 400
  let yoe : Nat := y1 - era * 400
  let mp : Nat := if m > 2 then m - 3 else m + 9
  let doy : Nat := (153 * mp + 2) / 5 + d - 1
  let doe : Nat := yoe * 365 + yoe / 4 - yoe / 100 + doy
  ((era * 146097 + doe : Nat) : Int) - 306

/-- A sample of `time.Parse(time.RFC3339, s)`, for times in UTC without
fraction, of the form `2006-01-02T15:04:05Z`. -/
def sampleParseRFC3339 (s : String) : Except Error Time :=
  let fail : Except Error Time := .error (Error.lib "parsing time: cannot parse")
  match s.data with
  | [y1, y2, y3, y4, a, m1, m2, b, d1, d2, t, h1, h2, c, i1, i2, e, s1, s2, z] =>
    if a = '-' ∧ b = '-' ∧ t = 'T' ∧ c = ':' ∧ e = ':' ∧ z = 'Z' then
      match digitsVal [y1, y2, y3, y4] 0, digitsVal [m1, m2] 0, digitsVal [d1, d2] 0,
        digitsVal [h1, h2] 0, digitsVal [i1, i2] 0, digitsVal [s1, s2] 0 with
      | some y, some m, some d, some h, some i, some sec =>
        if 1 ≤ m ∧ m ≤ 12 ∧ 1 ≤ d ∧ d ≤ daysIn y m ∧ h < 24 ∧ i < 60 ∧ sec < 60 then
          .ok ⟨daysFromCivil y m d * 86400 + ((h * 3600 + i * 60 + sec : Nat) : Int), 0, 0⟩
        else fail
      | _, _, _, _, _, _ => fail
    else fail
  | _ => fail

/-- The entity at the head of a text that follows `&`: the character it stands
for and the number of characters it takes. -/
def entity : List Char → Option (Char × Nat)
  | 'a' :: 'm' :: 'p' :: ';' :: _ => some ('&', 4)
  | 'l' :: 't' :: ';' :: _ => some ('<', 3)
  | 'g' :: 't' :: ';' :: _ => some ('>', 3)
  | 'q' :: 'u' :: 'o' :: 't' :: ';' :: _ => some ('"', 5)
  | '#' :: '3' :: '9' :: ';' :: _ => some (Char.ofNat 39, 4)
  | _ => none

/-- Replacement of the five entities of XML; `skip` characters at the head
belong to an entity already replaced. -/
def unescapeChars : List Char → Nat → List Char
  | [], _ => []
  | _ :: rest, skip + 1 => unescapeChars rest skip
  | c :: rest, 0 =>
    if c = '&' then
      match entity rest with
      | some (r, n) => r :: unescapeChars rest n
      | none => c :: unescapeChars rest 0
    else c :: unescapeChars rest 0

/-- A sample of `html.UnescapeString`, for the five entities of XML. -/
def sampleUnescape (s : String) : String := String.mk (unescapeChars s.data 0)

/-- A sample of the formatting of a `time.Duration`, for whole seconds. -/
def sampleFmtDuration (d : Int) : String :=
  if d = 0 then "0s"
  else
    let secs := d.natAbs / 1000000000
    let sign := if d < 0 then "-" else ""
    if secs < 60 then sign ++ toString secs ++ "s"
    else if secs < 3600 then sign ++ toString (secs / 60) ++ "m" ++ toString (secs % 60) ++ "s"
    else sign ++ toString (secs / 3600) ++ "h" ++ toString (secs % 3600 / 60) ++ "m"
      ++ toString (secs % 60) ++ "s"

/-- Three items, the second without publication date. -/
def threeItems : List RSSItem :=
  [ ⟨"First", "https://blog.example.com/1", "one", "2024-05-01T10:00:00Z"⟩,
    ⟨"Cats &amp; Dogs", "https://blog.example.com/2", "", ""⟩,
    ⟨"", "https://blog.example.com/3", "three", "2024-05-03T08:30:00Z"⟩ ]

/-- A decoded feed with the three items. -/
def threeItemFeed : RSSFeed :=
  ⟨⟨"Tom &amp; Jerry", "https://blog.example.com", "A &lt;b&gt;blog&lt;/b&gt;", threeItems⟩⟩

/-- A sample of `xml.Unmarshal`: one known document. -/
def sampleUnmarshal (data : String) : Except Error RSSFeed :=
  if data = "<rss>three items</rss>" then .ok threeItemFeed
  else .error (Error.lib "EOF")

/-- A sample of the network: one host answers, with the known document. -/
def sampleDo (_n : Nat) (url : String) : Except Error Response :=
  if url = "https://blog.example.com/index.xml" then .ok ⟨.ok "<rss>three items</rss>"⟩
  else .error (Error.lib "dial tcp: lookup failed: no such host")

/-- A sample of the configuration file. -/
def sampleConfig : Config := ⟨"kahya", "postgres://localhost:5432/gator"⟩

/-- The sample environment: the store in memory and the samples of the libraries. -/
def sampleEnv : Env MemDb :=
  { GetUser := MemDb.GetUser
    GetUserById := MemDb.GetUserById
    CreateUser := MemDb.CreateUser
    DeleteUsers := MemDb.DeleteUsers
    GetUsers := fun db => (.ok db.users, db)
    GetFeeds := fun db => (.ok db.feeds, db)
    CreateFeed := MemDb.CreateFeed
    GetFeedByUrl := MemDb.GetFeedByUrl
    CreateFeedFollow := MemDb.CreateFeedFollow
    DeleteFeedFollow := MemDb.DeleteFeedFollow
    GetFeedFollowsForUser := MemDb.GetFeedFollowsForUser
    GetPostsForUser := MemDb.GetPostsForUser
    GetNextFeedToFetch := MemDb.GetNextFeedToFetch
    MarkFeedFetched := MemDb.MarkFeedFetched
    CreatePost := MemDb.CreatePost
    uuidGen := fun n => ⟨1000 + n⟩
    now := fun n => ⟨63850000000 + n, 0, 0⟩
    NewRequest := fun url => if url = "" then some (Error.lib "net/http: empty url") else none
    Do := sampleDo
    xmlUnmarshal := sampleUnmarshal
    UnescapeString := sampleUnescape
    ParseRFC3339 := sampleParseRFC3339
    ParseDuration := sampleParseDuration
    Atoi := sampleAtoi
    UserHomeDir := .ok "/home/kahya"
    ReadFile := fun path =>
      if path = "/home/kahya/.gatorconfig.json" then .ok "config" else .error (Error.lib "open: no such file")
    WriteFile := fun _ _ => none
    jsonUnmarshal := fun data =>
      if data = "config" then .ok sampleConfig else .error (Error.lib "invalid character")
    jsonMarshal := fun _ => .ok "config"
    sqlOpen := fun _ => none
    fmtDuration := sampleFmtDuration
    fmtMonJan2 := fun t => toString t.sec
    fmtUser := fun u => "\x7b" ++ toString u.ID.n ++ " " ++ u.Name ++ "\x7d"
    fmtFeed := fun f => "\x7b" ++ toString f.ID.n ++ " " ++ f.Name ++ " " ++ f.Url ++ "\x7d"
    fmtPost := fun q => "\x7b" ++ toString q.ID.n ++ " " ++ q.Url ++ "\x7d"
    fmtFollow := fun r => "\x7b" ++ toString r.ID.n ++ " " ++ r.FeedName ++ " " ++ r.UserName ++ "\x7d" }

/-- The user of the sample store. -/
def kahya : User := ⟨⟨1⟩, ⟨63840000000, 0, 0⟩, ⟨63840000000, 0, 0⟩, "kahya"⟩

/-- A feed of the sample store whose host answers; never fetched. -/
def blogFeed : Feed :=
  ⟨⟨10⟩, ⟨63840000100, 0, 0⟩, ⟨63840000100, 0, 0⟩, "Blog", "https://blog.example.com/index.xml",
    ⟨1⟩, ⟨Time.zero, false⟩⟩

/-- A feed of the sample store whose host does not answer; never fetched. -/
def deadFeed : Feed :=
  ⟨⟨11⟩, ⟨63840000200, 0, 0⟩, ⟨63840000200, 0, 0⟩, "Dead", "https://dead.example.com/rss",
    ⟨1⟩, ⟨Time.zero, false⟩⟩

/-- A world around the given store: nothing printed, no call made yet. -/
def worldOf (db : MemDb) : World MemDb :=
  { s := { db := db, config := sampleConfig }, uuids := 0, clock := 0, net := 0,
    out := [], trace := [] }

/-- A sample store: one user, who owns and follows the feed that answers. -/
def blogDb : MemDb :=
  { users := [kahya], feeds := [blogFeed], posts := [],
    follows := [⟨⟨20⟩, ⟨63840000300, 0, 0⟩, ⟨63840000300, 0, 0⟩, ⟨1⟩, ⟨10⟩, "Blog", "kahya"⟩],
    clock := 63850000000 }

/-- A sample store: one user and the feed that does not answer. -/
def deadDb : MemDb :=
  { users := [kahya], feeds := [deadFeed], posts := [], follows := [], clock := 63850000000 }

/-! ## Basic facts about the monad -/

theorem bind_def {σ α β : Type} (m : M σ α) (f : α → M σ β) : (m >>= f) = M.bind m f := rfl

theorem pure_def {σ α : Type} (a : α) : (pure a : M σ α) = M.pure a := rfl

theorem M.bind_ret {σ α β : Type} (m : M σ α) (f : α → M σ β) (w w1 : World σ) (a : α)
    (h : m w = (Res.ret a, w1)) : M.bind m f w = f a w1 := by
  simp [M.bind, h]

theorem M.bind_pure_left {σ α β : Type} (a : α) (f : α → M σ β) :
    M.bind (M.pure a) f = f a := by
  funext w
  simp [M.bind, M.pure]

/-! ## Command router -/

theorem lookup_filter_ne {σ : Type} (l : List (String × Handler σ)) (n k : String) :
    List.lookup k (l.filter (fun p => p.1 != n)) = if k = n then none else List.lookup k l := by
  induction l with
  | nil => simp
  | cons p l ih =>
    obtain ⟨a, h⟩ := p
    by_cases han : a = n
    · subst han
      have hf : ((a, h) :: l).filter (fun p => p.1 != a) = l.filter (fun p => p.1 != a) := by
        simp [List.filter]
      rw [hf, ih]
      by_cases hk : k = a
      · simp [hk]
      · have : (k == a) = false := by simpa using hk
        simp [hk, List.lookup, this]
    · have hne : (a != n) = true := by simpa using han
      by_cases hk : k = a
      · subst hk
        simp [List.filter, hne, List.lookup, han]
      · have : (k == a) = false := by simpa using hk
        simp [List.filter, hne, List.lookup, this, ih]

theorem lookup_register {σ : Type} (c : commands σ) (n k : String) (f : Handler σ) :
    List.lookup k (c.register n f).cmds = if k = n then some f else List.lookup k c.cmds := by
  by_cases hk : k = n
  · subst hk
    simp [commands.register, List.lookup]
  · have : (k == n) = false := by simpa using hk
    simp [commands.register, List.lookup, this, lookup_filter_ne, hk]

theorem lookup_registered {σ : Type} (regs : List (String × Handler σ)) (k : String) :
    List.lookup k (regs.foldl (fun c p => c.register p.1 p.2) (commands.empty σ)).cmds
      = (regs.reverse.find? (fun p => p.1 == k)).map (fun p => p.2) := by
  induction regs using List.reverseRecOn with
  | nil => simp [commands.empty]
  | append_singleton init p ih =>
    rw [List.foldl_append]
    simp only [List.foldl_cons, List.foldl_nil, List.reverse_append, List.reverse_cons,
      List.reverse_nil, List.nil_append, List.singleton_append]
    rw [lookup_register, ih]
    by_cases hk : k = p.1
    · subst hk
      simp [List.find?]
    · have : (p.1 == k) = false := by
        simp only [beq_eq_false_iff_ne, ne_eq]
        exact fun h => hk h.symm
      simp [List.find?, this, hk]

theorem run_of_lookup {σ : Type} (c : commands σ) (cmd : command) (h : Handler σ) (w : World σ)
    (hl : List.lookup cmd.name c.cmds = some h) : c.run cmd w = h cmd w := by
  unfold commands.run
  rw [hl]
  simp only [bind_def, pure_def, M.bind, M.pure]
  rcases hr : h cmd w with ⟨r, w1⟩
  cases r with
  | ret a => cases a <;> rfl
  | exit code => rfl
  | panic msg => rfl
  | running => rfl

theorem run_of_lookup_none {σ : Type} (c : commands σ) (cmd : command) (w : World σ)
    (hl : List.lookup cmd.name c.cmds = none) :
    c.run cmd w = (Res.ret (some (notFound cmd.name)), w) := by
  unfold commands.run
  rw [hl]
  rfl

theorem notFound_names (name : String) : name.data <:+: (notFound name).Error.data := by
  refine ⟨"command '".data, "' not found".data, ?_⟩
  simp [notFound, Error.Error]

/-- C1: for a dispatch table built by any sequence of `register` calls, `run`
returns the not-found error, whose message contains the command name, and
leaves the world as it was when no registration bears the name of the command;
otherwise it yields exactly what the last handler registered under that name
yields on the same world and the same command. -/
theorem run_dispatch {σ : Type} (regs : List (String × Handler σ)) (cmd : command)
    (w : World σ) :
    match regs.reverse.find? (fun p => p.1 == cmd.name) with
    | none =>
      (regs.foldl (fun c p => c.register p.1 p.2) (commands.empty σ)).run cmd w
          = (Res.ret (some (notFound cmd.name)), w)
        ∧ cmd.name.data <:+: (notFound cmd.name).Error.data
    | some p =>
      (regs.foldl (fun c p => c.register p.1 p.2) (commands.empty σ)).run cmd w = p.2 cmd w := by
  have hl := lookup_registered regs cmd.name
  cases hf : regs.reverse.find? (fun p => p.1 == cmd.name) with
  | none =>
    rw [hf] at hl
    exact ⟨run_of_lookup_none _ cmd w hl, notFound_names cmd.name⟩
  | some p =>
    rw [hf] at hl
    exact run_of_lookup _ cmd p.2 w hl

/-! ## Auth middleware -/

/-- C2: the handler `middlewareLoggedIn` returns looks the current user name up
in the store; when the lookup fails it returns that error, whatever the inner
handler is, and when it succeeds it yields what the inner handler yields on
the same command, the resolved user and the world after the lookup. -/
theorem middlewareLoggedIn_gate {σ : Type} (env : Env σ) (handler : UserHandler σ)
    (cmd : command) (w : World σ) :
    match (env.GetUser w.s.config.CurrentUserName w.s.db).1 with
    | .error err =>
      middlewareLoggedIn env handler cmd w
        = (Res.ret (some err),
            { w with
              s := { w.s with db := (env.GetUser w.s.config.CurrentUserName w.s.db).2 }
              trace := w.trace ++ [Call.GetUser w.s.config.CurrentUserName] })
    | .ok user =>
      middlewareLoggedIn env handler cmd w
        = handler cmd user
            { w with
              s := { w.s with db := (env.GetUser w.s.config.CurrentUserName w.s.db).2 }
              trace := w.trace ++ [Call.GetUser w.s.config.CurrentUserName] } := by
  cases hr : (env.GetUser w.s.config.CurrentUserName w.s.db).1 with
  | error err => simp [middlewareLoggedIn, readConfig, bind_def, pure_def, M.bind, M.pure, query, hr]
  | ok user => simp [middlewareLoggedIn, readConfig, bind_def, pure_def, M.bind, M.pure, query, hr]

/-! ## Ingestion cycle -/

theorem savePost_ret {σ : Type} (env : Env σ) (feed : Feed) (f : RSSItem) (w : World σ) :
    (savePost env feed f w).1 = Res.ret () := by
  simp only [savePost, bind_def, M.bind, uuidNew, timeNow, query]
  rcases env.CreatePost (postParams env feed f (env.uuidGen w.uuids) (env.now w.clock)
    (env.now (w.clock + 1))) w.s.db with ⟨r, db1⟩
  cases r <;> simp [Println, Printf, bind_def, M.bind]

theorem savePost_trace {σ : Type} (env : Env σ) (feed : Feed) (f : RSSItem) (w : World σ) :
    (savePost env feed f w).2.trace
      = w.trace ++ [Call.CreatePost (postParams env feed f (env.uuidGen w.uuids)
          (env.now w.clock) (env.now (w.clock + 1)))] := by
  simp only [savePost, bind_def, M.bind, uuidNew, timeNow, query]
  rcases env.CreatePost (postParams env feed f (env.uuidGen w.uuids) (env.now w.clock)
    (env.now (w.clock + 1))) w.s.db with ⟨r, db1⟩
  cases r <;> simp [Println, Printf, bind_def, M.bind]

theorem savePost_counters {σ : Type} (env : Env σ) (feed : Feed) (f : RSSItem) (w : World σ) :
    (savePost env feed f w).2.uuids = w.uuids + 1
      ∧ (savePost env feed f w).2.clock = w.clock + 2 := by
  simp only [savePost, bind_def, M.bind, uuidNew, timeNow, query]
  rcases env.CreatePost (postParams env feed f (env.uuidGen w.uuids) (env.now w.clock)
    (env.now (w.clock + 1))) w.s.db with ⟨r, db1⟩
  cases r <;> simp [Println, Printf, bind_def, M.bind]

theorem forRange_savePost {σ : Type} (env : Env σ) (feed : Feed) (items : List RSSItem)
    (w : World σ) :
    (forRange items (savePost env feed) w).1 = Res.ret ()
      ∧ (forRange items (savePost env feed) w).2.trace
          = w.trace ++ expectedPostCalls env feed items w.uuids w.clock := by
  induction items generalizing w with
  | nil => simp [forRange, pure_def, M.pure, expectedPostCalls]
  | cons f rest ih =>
    have h1 : savePost env feed f w = (Res.ret (), (savePost env feed f w).2) :=
      Prod.ext (savePost_ret env feed f w) rfl
    have hstep : forRange (f :: rest) (savePost env feed) w
        = forRange rest (savePost env feed) (savePost env feed f w).2 := by
      rw [forRange, bind_def, M.bind_ret _ _ w _ () h1]
    rw [hstep]
    obtain ⟨hr, ht⟩ := ih (savePost env feed f w).2
    refine ⟨hr, ?_⟩
    rw [ht, savePost_trace, (savePost_counters env feed f w).1, (savePost_counters env feed f w).2]
    simp [expectedPostCalls]

theorem fetchFeed_world {σ : Type} (env : Env σ) (url : String) (w : World σ) :
    (fetchFeed env url w).2
      = if env.NewRequest url = none then
          { w with net := w.net + 1, trace := w.trace ++ [Call.httpDo url] }
        else w := by
  unfold fetchFeed
  cases hreq : env.NewRequest url with
  | some err => simp [pure_def, M.pure]
  | none =>
    simp only [bind_def, M.bind, clientDo, if_true]
    cases hdo : env.Do w.net url with
    | error err => simp [pure_def, M.pure]
    | ok resp =>
      cases hb : resp.Body with
      | error err => simp [pure_def, M.pure, hb]
      | ok data =>
        cases hx : env.xmlUnmarshal data with
        | error err => simp [pure_def, M.pure, hb, hx]
        | ok rssFeed => simp [pure_def, M.pure, hb, hx]

theorem fetchFeed_ret {σ : Type} (env : Env σ) (url : String) (w : World σ) :
    ∃ r, (fetchFeed env url w).1 = Res.ret r := by
  unfold fetchFeed
  cases hreq : env.NewRequest url with
  | some err => exact ⟨_, rfl⟩
  | none =>
    simp only [bind_def, M.bind, clientDo]
    cases hdo : env.Do w.net url with
    | error err => exact ⟨_, rfl⟩
    | ok resp =>
      cases hb : resp.Body with
      | error err => simp [pure_def, M.pure, hb]
      | ok data =>
        cases hx : env.xmlUnmarshal data with
        | error err => simp [pure_def, M.pure, hb, hx]
        | ok rssFeed => simp [pure_def, M.pure, hb, hx]

theorem scrapeFeeds_select_error {σ : Type} (env : Env σ) (w : World σ) (e : Error)
    (hsel : (env.GetNextFeedToFetch w.s.db).1 = .error e) :
    scrapeFeeds env w
      = (Res.ret (some e),
          { w with s := { w.s with db := (env.GetNextFeedToFetch w.s.db).2 }
                   trace := w.trace ++ [Call.GetNextFeedToFetch] }) := by
  simp [scrapeFeeds, bind_def, M.bind, query, hsel, pure_def, M.pure]

theorem scrapeFeeds_mark_error {σ : Type} (env : Env σ) (w : World σ) (feed : Feed) (e : Error)
    (hsel : (env.GetNextFeedToFetch w.s.db).1 = .ok feed)
    (hmark : (env.MarkFeedFetched feed.ID (env.GetNextFeedToFetch w.s.db).2).1 = some e) :
    scrapeFeeds env w = (Res.ret (some e), afterMark env w feed) := by
  simp [scrapeFeeds, bind_def, M.bind, query, hsel, hmark, pure_def, M.pure, Println, Printf,
    afterMark, announcement]

theorem scrapeFeeds_after_mark {σ : Type} (env : Env σ) (w : World σ) (feed : Feed)
    (hsel : (env.GetNextFeedToFetch w.s.db).1 = .ok feed)
    (hmark : (env.MarkFeedFetched feed.ID (env.GetNextFeedToFetch w.s.db).2).1 = none) :
    scrapeFeeds env w
      = M.bind (fetchFeed env feed.Url)
          (fun r =>
            match r with
            | .error err => M.pure (some err)
            | .ok rssFeed =>
              M.bind (forRange rssFeed.Channel.Item (savePost env feed)) (fun _ => M.pure none))
          (afterMark env w feed) := by
  simp [scrapeFeeds, bind_def, M.bind, query, hsel, hmark, pure_def, Println, Printf,
    afterMark, announcement]

theorem scrapeFeeds_fetch_error {σ : Type} (env : Env σ) (w : World σ) (feed : Feed) (e : Error)
    (hsel : (env.GetNextFeedToFetch w.s.db).1 = .ok feed)
    (hmark : (env.MarkFeedFetched feed.ID (env.GetNextFeedToFetch w.s.db).2).1 = none)
    (hfetch : (fetchFeed env feed.Url (afterMark env w feed)).1 = Res.ret (.error e)) :
    scrapeFeeds env w = (Res.ret (some e), (fetchFeed env feed.Url (afterMark env w feed)).2) := by
  rw [scrapeFeeds_after_mark env w feed hsel hmark]
  rcases hfe : fetchFeed env feed.Url (afterMark env w feed) with ⟨r, wf⟩
  rw [hfe] at hfetch
  simp only at hfetch
  subst hfetch
  simp [M.bind, hfe, M.pure]

theorem scrapeFeeds_fetch_ok {σ : Type} (env : Env σ) (w : World σ) (feed : Feed)
    (rssFeed : RSSFeed)
    (hsel : (env.GetNextFeedToFetch w.s.db).1 = .ok feed)
    (hmark : (env.MarkFeedFetched feed.ID (env.GetNextFeedToFetch w.s.db).2).1 = none)
    (hfetch : (fetchFeed env feed.Url (afterMark env w feed)).1 = Res.ret (.ok rssFeed)) :
    scrapeFeeds env w
      = (Res.ret none,
          (forRange rssFeed.Channel.Item (savePost env feed)
            (fetchFeed env feed.Url (afterMark env w feed)).2).2) := by
  rw [scrapeFeeds_after_mark env w feed hsel hmark]
  rcases hfe : fetchFeed env feed.Url (afterMark env w feed) with ⟨r, wf⟩
  rw [hfe] at hfetch
  simp only at hfetch
  subst hfetch
  have hl := (forRange_savePost env feed rssFeed.Channel.Item wf).1
  rcases hfr : forRange rssFeed.Channel.Item (savePost env feed) wf with ⟨r2, wf2⟩
  rw [hfr] at hl
  simp only at hl
  subst hl
  simp [M.bind, hfe, hfr, M.pure]

theorem fetchFeed_ok_request {σ : Type} (env : Env σ) (url : String) (w : World σ)
    (rssFeed : RSSFeed) (h : (fetchFeed env url w).1 = Res.ret (.ok rssFeed)) :
    env.NewRequest url = none := by
  cases hreq : env.NewRequest url with
  | none => rfl
  | some err =>
    unfold fetchFeed at h
    rw [hreq] at h
    simp [pure_def, M.pure] at h

theorem fetchFeed_trace_prefix {σ : Type} (env : Env σ) (url : String) (w : World σ) :
    (fetchFeed env url w).2.trace
      = w.trace ++ (if env.NewRequest url = none then [Call.httpDo url] else []) := by
  rw [fetchFeed_world]
  split <;> simp

theorem fetchFeed_db {σ : Type} (env : Env σ) (url : String) (w : World σ) :
    (fetchFeed env url w).2.s = w.s ∧ (fetchFeed env url w).2.uuids = w.uuids
      ∧ (fetchFeed env url w).2.clock = w.clock := by
  rw [fetchFeed_world]
  split <;> simp

theorem createPostCalls_append (a b : List Call) :
    createPostCalls (a ++ b) = createPostCalls a ++ createPostCalls b := by
  simp [createPostCalls, List.filterMap_append]

theorem callsSince_append {σ : Type} (w wf : World σ) (new : List Call)
    (h : wf.trace = w.trace ++ new) : callsSince w wf = new := by
  simp [callsSince, h]

theorem createPostCalls_expected {σ : Type} (env : Env σ) (feed : Feed) (items : List RSSItem)
    (uuids clock : Nat) :
    (createPostCalls (expectedPostCalls env feed items uuids clock)).map
        (fun p => (p.Url, p.FeedID))
      = items.map (fun f => (f.Link, feed.ID)) := by
  induction items generalizing uuids clock with
  | nil => simp [expectedPostCalls, createPostCalls]
  | cons f rest ih =>
    have := ih (uuids + 1) (clock + 2)
    simp only [createPostCalls] at this
    simp [expectedPostCalls, createPostCalls, postParams, this]

theorem createPostCalls_expected_length {σ : Type} (env : Env σ) (feed : Feed)
    (items : List RSSItem) (uuids clock : Nat) :
    (createPostCalls (expectedPostCalls env feed items uuids clock)).length = items.length := by
  have h := congrArg List.length (createPostCalls_expected env feed items uuids clock)
  simpa using h

theorem unset_publish_count {σ : Type} (env : Env σ) (feed : Feed) (items : List RSSItem)
    (hparse : ∀ f ∈ items, f.PubDate ≠ "" → ∃ t, env.ParseRFC3339 f.PubDate = .ok t)
    (uuids clock : Nat) :
    ((createPostCalls (expectedPostCalls env feed items uuids clock)).filter
        (fun p => !p.PublishedAt.Valid)).length
      = (items.filter (fun f => f.PubDate == "")).length := by
  induction items generalizing uuids clock with
  | nil => simp [expectedPostCalls, createPostCalls]
  | cons f rest ih =>
    have hrest := ih (fun g hg => hparse g (List.mem_cons_of_mem _ hg)) (uuids + 1) (clock + 2)
    have hcons : createPostCalls (expectedPostCalls env feed (f :: rest) uuids clock)
        = postParams env feed f (env.uuidGen uuids) (env.now clock) (env.now (clock + 1))
          :: createPostCalls (expectedPostCalls env feed rest (uuids + 1) (clock + 2)) := by
      simp [expectedPostCalls, createPostCalls]
    rw [hcons, List.filter_cons, List.filter_cons]
    by_cases hf : f.PubDate = ""
    · simp [postParams, stringtoSqlNullTime, hf, hrest]
    · obtain ⟨t, ht⟩ := hparse f (List.mem_cons_self _ _) hf
      simp [postParams, stringtoSqlNullTime, hf, ht, hrest]

theorem scrapeFeeds_trace_ok {σ : Type} (env : Env σ) (w : World σ) (feed : Feed)
    (rssFeed : RSSFeed)
    (hsel : (env.GetNextFeedToFetch w.s.db).1 = .ok feed)
    (hmark : (env.MarkFeedFetched feed.ID (env.GetNextFeedToFetch w.s.db).2).1 = none)
    (hfetch : (fetchFeed env feed.Url (afterMark env w feed)).1 = Res.ret (.ok rssFeed)) :
    (scrapeFeeds env w).2.trace
      = w.trace ++ ([Call.GetNextFeedToFetch, Call.MarkFeedFetched feed.ID, Call.httpDo feed.Url]
          ++ expectedPostCalls env feed rssFeed.Channel.Item w.uuids w.clock) := by
  rw [scrapeFeeds_fetch_ok env w feed rssFeed hsel hmark hfetch]
  have hreq := fetchFeed_ok_request env feed.Url _ rssFeed hfetch
  obtain ⟨_, hu, hc⟩ := fetchFeed_db env feed.Url (afterMark env w feed)
  rw [(forRange_savePost env feed rssFeed.Channel.Item _).2, fetchFeed_trace_prefix, hu, hc,
    hreq]
  simp [afterMark]

/-- C3: in a cycle in which a feed is selected and marking succeeds, the calls
of the cycle start with the selection and the mark of exactly the selected
feed, before anything else; no further mark follows; and when the fetch, made in the world
after the mark, fails, the cycle returns the fetch error, the store is as the mark left
it, the only later call is the HTTP request (if the request could be built),
and no `CreatePost` is made. -/
theorem scrapeFeeds_marks_before_fetch {σ : Type} (env : Env σ) (w : World σ) (feed : Feed)
    (hsel : (env.GetNextFeedToFetch w.s.db).1 = .ok feed)
    (hmark : (env.MarkFeedFetched feed.ID (env.GetNextFeedToFetch w.s.db).2).1 = none) :
    (∃ rest, callsSince w (scrapeFeeds env w).2
        = [Call.GetNextFeedToFetch, Call.MarkFeedFetched feed.ID] ++ rest
        ∧ (∀ id, Call.MarkFeedFetched id ∉ rest) ∧ Call.GetNextFeedToFetch ∉ rest)
      ∧ ∀ e, (fetchFeed env feed.Url (afterMark env w feed)).1 = Res.ret (.error e) →
        (scrapeFeeds env w).1 = Res.ret (some e)
          ∧ (scrapeFeeds env w).2.s.db
              = (env.MarkFeedFetched feed.ID (env.GetNextFeedToFetch w.s.db).2).2
          ∧ callsSince w (scrapeFeeds env w).2
              = [Call.GetNextFeedToFetch, Call.MarkFeedFetched feed.ID]
                ++ (if env.NewRequest feed.Url = none then [Call.httpDo feed.Url] else [])
          ∧ createPostCalls (callsSince w (scrapeFeeds env w).2) = [] := by
  have herr : ∀ e, (fetchFeed env feed.Url (afterMark env w feed)).1 = Res.ret (.error e) →
      (scrapeFeeds env w).1 = Res.ret (some e)
        ∧ (scrapeFeeds env w).2.s.db
            = (env.MarkFeedFetched feed.ID (env.GetNextFeedToFetch w.s.db).2).2
        ∧ callsSince w (scrapeFeeds env w).2
            = [Call.GetNextFeedToFetch, Call.MarkFeedFetched feed.ID]
              ++ (if env.NewRequest feed.Url = none then [Call.httpDo feed.Url] else [])
        ∧ createPostCalls (callsSince w (scrapeFeeds env w).2) = [] := by
    intro e hfetch
    have hcalls : callsSince w (scrapeFeeds env w).2
        = [Call.GetNextFeedToFetch, Call.MarkFeedFetched feed.ID]
          ++ (if env.NewRequest feed.Url = none then [Call.httpDo feed.Url] else []) := by
      apply callsSince_append
      rw [scrapeFeeds_fetch_error env w feed e hsel hmark hfetch, fetchFeed_trace_prefix]
      simp [afterMark]
    refine ⟨?_, ?_, hcalls, ?_⟩
    · rw [scrapeFeeds_fetch_error env w feed e hsel hmark hfetch]
    · rw [scrapeFeeds_fetch_error env w feed e hsel hmark hfetch,
        (fetchFeed_db env feed.Url (afterMark env w feed)).1]
      rfl
    · rw [hcalls]
      split <;> simp [createPostCalls]
  refine ⟨?_, herr⟩
  obtain ⟨r, hr⟩ := fetchFeed_ret env feed.Url (afterMark env w feed)
  cases r with
  | error e =>
    refine ⟨_, (herr e hr).2.2.1, ?_, ?_⟩
    · intro id
      split <;> simp
    · split <;> simp
  | ok rssFeed =>
    refine ⟨Call.httpDo feed.Url :: expectedPostCalls env feed rssFeed.Channel.Item w.uuids w.clock,
      ?_, ?_, ?_⟩
    · apply callsSince_append
      rw [scrapeFeeds_trace_ok env w feed rssFeed hsel hmark hr]
      simp
    · intro id
      have : ∀ (items : List RSSItem) (u c : Nat),
          Call.MarkFeedFetched id ∉ expectedPostCalls env feed items u c := by
        intro items
        induction items with
        | nil => intro u c; simp [expectedPostCalls]
        | cons f rest ih => intro u c; simp [expectedPostCalls, ih]
      simp [this]
    · have : ∀ (items : List RSSItem) (u c : Nat),
          Call.GetNextFeedToFetch ∉ expectedPostCalls env feed items u c := by
        intro items
        induction items with
        | nil => intro u c; simp [expectedPostCalls]
        | cons f rest ih => intro u c; simp [expectedPostCalls, ih]
      simp [this]

/-- C4: in a cycle that selects a feed, marks it and fetches it, the cycle
returns success and its calls are the selection, the mark, the HTTP request
and then one `CreatePost` per item of the fetched feed, in the order of the
items, whatever the store answers to each insertion; the insertions bear the
links of the items in order and the id of the selected feed. -/
theorem scrapeFeeds_inserts_each_item {σ : Type} (env : Env σ) (w : World σ) (feed : Feed)
    (rssFeed : RSSFeed)
    (hsel : (env.GetNextFeedToFetch w.s.db).1 = .ok feed)
    (hmark : (env.MarkFeedFetched feed.ID (env.GetNextFeedToFetch w.s.db).2).1 = none)
    (hfetch : (fetchFeed env feed.Url (afterMark env w feed)).1 = Res.ret (.ok rssFeed)) :
    (scrapeFeeds env w).1 = Res.ret none
      ∧ callsSince w (scrapeFeeds env w).2
          = [Call.GetNextFeedToFetch, Call.MarkFeedFetched feed.ID, Call.httpDo feed.Url]
            ++ expectedPostCalls env feed rssFeed.Channel.Item w.uuids w.clock
      ∧ (createPostCalls (callsSince w (scrapeFeeds env w).2)).map (fun p => (p.Url, p.FeedID))
          = rssFeed.Channel.Item.map (fun f => (f.Link, feed.ID)) := by
  have hcalls := callsSince_append w (scrapeFeeds env w).2 _
    (scrapeFeeds_trace_ok env w feed rssFeed hsel hmark hfetch)
  refine ⟨?_, hcalls, ?_⟩
  · rw [scrapeFeeds_fetch_ok env w feed rssFeed hsel hmark hfetch]
  · rw [hcalls, createPostCalls_append, List.map_append, createPostCalls_expected]
    simp [createPostCalls]

/-- Witness of C3: the sample store whose only feed has a host that does not
answer. -/
theorem scrapeFeeds_marks_before_fetch_witness :
    (sampleEnv.GetNextFeedToFetch (worldOf deadDb).s.db).1 = .ok deadFeed
      ∧ (sampleEnv.MarkFeedFetched deadFeed.ID
          (sampleEnv.GetNextFeedToFetch (worldOf deadDb).s.db).2).1 = none
      ∧ (fetchFeed sampleEnv deadFeed.Url (afterMark sampleEnv (worldOf deadDb) deadFeed)).1
          = Res.ret (.error (Error.lib "dial tcp: lookup failed: no such host"))
      ∧ (scrapeFeeds sampleEnv (worldOf deadDb)).1
          = Res.ret (some (Error.lib "dial tcp: lookup failed: no such host"))
      ∧ createPostCalls (callsSince (worldOf deadDb) (scrapeFeeds sampleEnv (worldOf deadDb)).2)
          = []
      ∧ (worldOf deadDb).s.db.feeds.map (fun f => f.LastFetchedAt.Valid) = [false]
      ∧ (scrapeFeeds sampleEnv (worldOf deadDb)).2.s.db.feeds.map
          (fun f => f.LastFetchedAt.Valid) = [true] :=
  ⟨rfl, rfl, rfl,
    ((scrapeFeeds_marks_before_fetch sampleEnv (worldOf deadDb) deadFeed rfl rfl).2 _ rfl).1,
    ((scrapeFeeds_marks_before_fetch sampleEnv (worldOf deadDb) deadFeed rfl rfl).2 _ rfl).2.2.2,
    rfl, rfl⟩

/-- Witness of C4: the sample store whose feed answers with three items. -/
theorem scrapeFeeds_inserts_each_item_witness :
    (sampleEnv.GetNextFeedToFetch (worldOf blogDb).s.db).1 = .ok blogFeed
      ∧ (sampleEnv.MarkFeedFetched blogFeed.ID
          (sampleEnv.GetNextFeedToFetch (worldOf blogDb).s.db).2).1 = none
      ∧ (fetchFeed sampleEnv blogFeed.Url (afterMark sampleEnv (worldOf blogDb) blogFeed)).1
          = Res.ret (.ok (DecodeEscapedStrings sampleUnescape threeItemFeed))
      ∧ (createPostCalls
            (callsSince (worldOf blogDb) (scrapeFeeds sampleEnv (worldOf blogDb)).2)).map
          (fun p => (p.Url, p.FeedID))
          = (DecodeEscapedStrings sampleUnescape threeItemFeed).Channel.Item.map
              (fun f => (f.Link, blogFeed.ID)) :=
  ⟨rfl, rfl, rfl,
    (scrapeFeeds_inserts_each_item sampleEnv (worldOf blogDb) blogFeed
      (DecodeEscapedStrings sampleUnescape threeItemFeed) rfl rfl rfl).2.2⟩

theorem scrapeFeeds_returns {σ : Type} (env : Env σ) (w : World σ) :
    ∃ r, (scrapeFeeds env w).1 = Res.ret r := by
  cases hsel : (env.GetNextFeedToFetch w.s.db).1 with
  | error e1 => exact ⟨_, by rw [scrapeFeeds_select_error env w e1 hsel]⟩
  | ok feed =>
    cases hmark : (env.MarkFeedFetched feed.ID (env.GetNextFeedToFetch w.s.db).2).1 with
    | some e1 => exact ⟨_, by rw [scrapeFeeds_mark_error env w feed e1 hsel hmark]⟩
    | none =>
      obtain ⟨r, hr⟩ := fetchFeed_ret env feed.Url (afterMark env w feed)
      cases r with
      | error e1 => exact ⟨_, by rw [scrapeFeeds_fetch_error env w feed e1 hsel hmark hr]⟩
      | ok rssFeed => exact ⟨_, by rw [scrapeFeeds_fetch_ok env w feed rssFeed hsel hmark hr]⟩

/-- Counterexample to C5: in the sample store whose only feed has a host that
does not answer, the selection of the feed succeeds, and yet the cycle does
not return success: it returns the error of the fetch. -/
theorem scrapeFeeds_fetch_failure_is_returned :
    ¬ ((sampleEnv.GetNextFeedToFetch (worldOf deadDb).s.db).1 = .ok deadFeed →
        (scrapeFeeds sampleEnv (worldOf deadDb)).1 = Res.ret none) := by
  intro h
  have h2 := h rfl
  have h3 : (scrapeFeeds sampleEnv (worldOf deadDb)).1
      = Res.ret (some (Error.lib "dial tcp: lookup failed: no such host")) := rfl
  rw [h3] at h2
  exact absurd h2 (by decide)

/-- C5, amended: a cycle always returns, and it returns an error exactly when
the selection of the feed fails, or marking the selected feed fails, or the
fetch of the marked feed fails; the error is that of the failing step. No
outcome of inserting the items makes the cycle return an error. -/
theorem scrapeFeeds_error_iff {σ : Type} (env : Env σ) (w : World σ) (e : Error) :
    (∃ r, (scrapeFeeds env w).1 = Res.ret r)
      ∧ ((scrapeFeeds env w).1 = Res.ret (some e) ↔
          ((env.GetNextFeedToFetch w.s.db).1 = .error e
            ∨ ∃ feed, (env.GetNextFeedToFetch w.s.db).1 = .ok feed
              ∧ ((env.MarkFeedFetched feed.ID (env.GetNextFeedToFetch w.s.db).2).1 = some e
                ∨ ((env.MarkFeedFetched feed.ID (env.GetNextFeedToFetch w.s.db).2).1 = none
                  ∧ (fetchFeed env feed.Url (afterMark env w feed)).1
                      = Res.ret (.error e))))) := by
  cases hsel : (env.GetNextFeedToFetch w.s.db).1 with
  | error e1 =>
    rw [scrapeFeeds_select_error env w e1 hsel]
    refine ⟨⟨_, rfl⟩, ?_⟩
    constructor
    · intro h
      left
      simp only [Res.ret.injEq, Option.some.injEq] at h
      rw [h]
    · intro h
      rcases h with h | ⟨feed, h, _⟩
      · simp only [Except.error.injEq] at h
        rw [h]
      · exact absurd h (by simp)
  | ok feed =>
    cases hmark : (env.MarkFeedFetched feed.ID (env.GetNextFeedToFetch w.s.db).2).1 with
    | some e1 =>
      rw [scrapeFeeds_mark_error env w feed e1 hsel hmark]
      refine ⟨⟨_, rfl⟩, ?_⟩
      constructor
      · intro h
        right
        simp only [Res.ret.injEq, Option.some.injEq] at h
        exact ⟨feed, rfl, Or.inl (by rw [hmark, h])⟩
      · intro h
        rcases h with h | ⟨feed2, h, h2⟩
        · exact absurd h (by simp)
        · simp only [Except.ok.injEq] at h
          subst h
          rcases h2 with h2 | ⟨h2, _⟩
          · rw [hmark] at h2
            simp only [Option.some.injEq] at h2
            rw [h2]
          · rw [hmark] at h2
            exact absurd h2 (by simp)
    | none =>
      obtain ⟨r, hr⟩ := fetchFeed_ret env feed.Url (afterMark env w feed)
      cases r with
      | error e1 =>
        rw [scrapeFeeds_fetch_error env w feed e1 hsel hmark hr]
        refine ⟨⟨_, rfl⟩, ?_⟩
        constructor
        · intro h
          right
          simp only [Res.ret.injEq, Option.some.injEq] at h
          exact ⟨feed, rfl, Or.inr ⟨hmark, by rw [hr, h]⟩⟩
        · intro h
          rcases h with h | ⟨feed2, h, h2⟩
          · exact absurd h (by simp)
          · simp only [Except.ok.injEq] at h
            subst h
            rcases h2 with h2 | ⟨_, h2⟩
            · rw [hmark] at h2
              exact absurd h2 (by simp)
            · rw [hr] at h2
              simp only [Res.ret.injEq, Except.error.injEq] at h2
              rw [h2]
      | ok rssFeed =>
        rw [scrapeFeeds_fetch_ok env w feed rssFeed hsel hmark hr]
        refine ⟨⟨_, rfl⟩, ?_⟩
        constructor
        · intro h
          exact absurd h (by simp)
        · intro h
          rcases h with h | ⟨feed2, h, h2⟩
          · exact absurd h (by simp)
          · simp only [Except.ok.injEq] at h
            subst h
            rcases h2 with h2 | ⟨_, h2⟩
            · rw [hmark] at h2
              exact absurd h2 (by simp)
            · rw [hr] at h2
              exact absurd h2 (by simp)

/-! ## Post parameters -/

/-- C7: the parameters built for an item have the link of the item as URL and
the id of the selected feed; title and description are unset exactly when the
string of the item is empty and are otherwise set to that string; the publish
time is unset when the date is empty or does not parse as RFC3339 and is
otherwise set to the parsed time. Hence a cycle that fetches three items, one
with an empty date and the others with dates that parse, makes three
insertions of which exactly one has an unset publish time. -/
theorem postParams_fields {σ : Type} (env : Env σ) (feed : Feed) (f : RSSItem) (id : UUID)
    (createdAt updatedAt : Time) :
    (postParams env feed f id createdAt updatedAt).Url = f.Link
      ∧ (postParams env feed f id createdAt updatedAt).FeedID = feed.ID
      ∧ ((postParams env feed f id createdAt updatedAt).Title.Valid = false ↔ f.Title = "")
      ∧ (f.Title ≠ "" →
          (postParams env feed f id createdAt updatedAt).Title = ⟨f.Title, true⟩)
      ∧ ((postParams env feed f id createdAt updatedAt).Description.Valid = false
          ↔ f.Description = "")
      ∧ (f.Description ≠ "" →
          (postParams env feed f id createdAt updatedAt).Description = ⟨f.Description, true⟩)
      ∧ ((f.PubDate = "" ∨ ∃ e, env.ParseRFC3339 f.PubDate = .error e) →
          (postParams env feed f id createdAt updatedAt).PublishedAt.Valid = false)
      ∧ (∀ t, f.PubDate ≠ "" → env.ParseRFC3339 f.PubDate = .ok t →
          (postParams env feed f id createdAt updatedAt).PublishedAt = ⟨t, true⟩)
      ∧ ∀ (w : World σ) (rssFeed : RSSFeed),
          (env.GetNextFeedToFetch w.s.db).1 = .ok feed →
          (env.MarkFeedFetched feed.ID (env.GetNextFeedToFetch w.s.db).2).1 = none →
          (fetchFeed env feed.Url (afterMark env w feed)).1 = Res.ret (.ok rssFeed) →
          rssFeed.Channel.Item.length = 3 →
          (rssFeed.Channel.Item.filter (fun g => g.PubDate == "")).length = 1 →
          (∀ g ∈ rssFeed.Channel.Item, g.PubDate ≠ "" →
            ∃ t, env.ParseRFC3339 g.PubDate = .ok t) →
          (createPostCalls (callsSince w (scrapeFeeds env w).2)).length = 3
            ∧ ((createPostCalls (callsSince w (scrapeFeeds env w).2)).filter
                (fun p => !p.PublishedAt.Valid)).length = 1
            ∧ ((createPostCalls (callsSince w (scrapeFeeds env w).2)).filter
                (fun p => p.PublishedAt.Valid)).length = 2 := by
  refine ⟨rfl, rfl, ?_, ?_, ?_, ?_, ?_, ?_, ?_⟩
  · by_cases h : f.Title = "" <;> simp [postParams, stringToSqlNullString, h]
  · intro h
    simp [postParams, stringToSqlNullString, h]
  · by_cases h : f.Description = "" <;> simp [postParams, stringToSqlNullString, h]
  · intro h
    simp [postParams, stringToSqlNullString, h]
  · intro h
    rcases h with h | ⟨e, h⟩
    · simp [postParams, stringtoSqlNullTime, h]
    · by_cases h0 : f.PubDate = "" <;> simp [postParams, stringtoSqlNullTime, h, h0]
  · intro t h0 h
    simp [postParams, stringtoSqlNullTime, h, h0]
  · intro w rssFeed hsel hmark hfetch hlen hone hparse
    have hcalls := callsSince_append w (scrapeFeeds env w).2 _
      (scrapeFeeds_trace_ok env w feed rssFeed hsel hmark hfetch)
    have hposts : createPostCalls (callsSince w (scrapeFeeds env w).2)
        = createPostCalls (expectedPostCalls env feed rssFeed.Channel.Item w.uuids w.clock) := by
      rw [hcalls, createPostCalls_append]
      simp [createPostCalls]
    have h3 : (createPostCalls (expectedPostCalls env feed rssFeed.Channel.Item w.uuids
        w.clock)).length = 3 := by
      rw [createPostCalls_expected_length, hlen]
    have h1 := unset_publish_count env feed rssFeed.Channel.Item hparse w.uuids w.clock
    rw [hone] at h1
    rw [hposts]
    refine ⟨h3, h1, ?_⟩
    have hsplit := List.length_eq_length_filter_add
      (l := createPostCalls (expectedPostCalls env feed rssFeed.Channel.Item w.uuids w.clock))
      (fun p => p.PublishedAt.Valid)
    simp only [Bool.not_eq_true] at hsplit
    omega

/-- Witness of C7: the second of the three sample items, which has a title, no
description and no date, and the cycle on the sample store. -/
theorem postParams_fields_witness :
    (threeItems.get ⟨1, by decide⟩).Title ≠ ""
      ∧ (postParams sampleEnv blogFeed (threeItems.get ⟨1, by decide⟩) ⟨7⟩ Time.zero
          Time.zero).Title = ⟨"Cats &amp; Dogs", true⟩
      ∧ (postParams sampleEnv blogFeed (threeItems.get ⟨1, by decide⟩) ⟨7⟩ Time.zero
          Time.zero).PublishedAt.Valid = false
      ∧ (sampleEnv.GetNextFeedToFetch (worldOf blogDb).s.db).1 = .ok blogFeed
      ∧ (DecodeEscapedStrings sampleUnescape threeItemFeed).Channel.Item.length = 3
      ∧ ((createPostCalls
            (callsSince (worldOf blogDb) (scrapeFeeds sampleEnv (worldOf blogDb)).2)).filter
          (fun p => !p.PublishedAt.Valid)).length = 1 :=
  have hne : (threeItems.get ⟨1, by decide⟩).Title ≠ "" := by decide
  have h := postParams_fields sampleEnv blogFeed (threeItems.get ⟨1, by decide⟩) ⟨7⟩ Time.zero
    Time.zero
  ⟨hne, h.2.2.2.1 hne, h.2.2.2.2.2.2.1 (Or.inl rfl), rfl, rfl,
    (h.2.2.2.2.2.2.2.2 (worldOf blogDb) (DecodeEscapedStrings sampleUnescape threeItemFeed)
      rfl rfl rfl rfl rfl
      (by
        intro g hg hne2
        have hitems : (DecodeEscapedStrings sampleUnescape threeItemFeed).Channel.Item
            = threeItems := rfl
        rw [hitems] at hg
        simp only [threeItems, List.mem_cons, List.mem_singleton, List.not_mem_nil,
          or_false] at hg
        rcases hg with rfl | rfl | rfl
        · exact ⟨_, rfl⟩
        · exact absurd rfl hne2
        · exact ⟨_, rfl⟩)).2.1⟩

/-! ## Feed fetcher -/

theorem decode_loop_fst (unescape : String → String) (items : List RSSItem)
    (st : RSSFeed × Option RSSItem) :
    (items.foldl (fun st item => (st.1, some (decodeItemCopy unescape item))) st).1 = st.1 := by
  induction items generalizing st with
  | nil => rfl
  | cons item rest ih => rw [List.foldl_cons, ih]

theorem scrapeFeeds_posts {σ : Type} (env : Env σ) (w : World σ) (feed : Feed)
    (rssFeed : RSSFeed)
    (hsel : (env.GetNextFeedToFetch w.s.db).1 = .ok feed)
    (hmark : (env.MarkFeedFetched feed.ID (env.GetNextFeedToFetch w.s.db).2).1 = none)
    (hfetch : (fetchFeed env feed.Url (afterMark env w feed)).1 = Res.ret (.ok rssFeed)) :
    createPostCalls (callsSince w (scrapeFeeds env w).2)
      = createPostCalls (expectedPostCalls env feed rssFeed.Channel.Item w.uuids w.clock) := by
  rw [callsSince_append w (scrapeFeeds env w).2 _
    (scrapeFeeds_trace_ok env w feed rssFeed hsel hmark hfetch), createPostCalls_append]
  simp [createPostCalls]

theorem createPostCalls_titles {σ : Type} (env : Env σ) (feed : Feed) (items : List RSSItem)
    (uuids clock : Nat) :
    (createPostCalls (expectedPostCalls env feed items uuids clock)).map (fun p => p.Title)
      = items.map (fun f => stringToSqlNullString f.Title) := by
  induction items generalizing uuids clock with
  | nil => simp [expectedPostCalls, createPostCalls]
  | cons f rest ih =>
    have := ih (uuids + 1) (clock + 2)
    simp only [createPostCalls] at this
    simp [expectedPostCalls, createPostCalls, postParams, this]

/-- For every feed, `DecodeEscapedStrings` unescapes the title and the
description of the channel and leaves the link and every item as they were. -/
theorem DecodeEscapedStrings_result (unescape : String → String) (rssFeed : RSSFeed) :
    DecodeEscapedStrings unescape rssFeed
      = ⟨⟨unescape rssFeed.Channel.Title, rssFeed.Channel.Link,
          unescape rssFeed.Channel.Description, rssFeed.Channel.Item⟩⟩ := by
  simp [DecodeEscapedStrings, decode_loop_fst]

/-- C6, at the failing input: the entity in the title `Cats &amp; Dogs` of an
item is still there after `DecodeEscapedStrings`, although the unescaped form
is `Cats & Dogs` and the title of the channel has been unescaped; the items are
unchanged, and the post inserted for the item in a cycle has the title with
the entity. -/
theorem DecodeEscapedStrings_keeps_item_entities :
    sampleUnescape "Cats &amp; Dogs" = "Cats & Dogs"
      ∧ (DecodeEscapedStrings sampleUnescape threeItemFeed).Channel.Title = "Tom & Jerry"
      ∧ (DecodeEscapedStrings sampleUnescape threeItemFeed).Channel.Item.map (fun f => f.Title)
          = ["First", "Cats &amp; Dogs", ""]
      ∧ (DecodeEscapedStrings sampleUnescape threeItemFeed).Channel.Item = threeItems
      ∧ (createPostCalls
            (callsSince (worldOf blogDb) (scrapeFeeds sampleEnv (worldOf blogDb)).2)).map
          (fun p => p.Title)
          = [⟨"First", true⟩, ⟨"Cats &amp; Dogs", true⟩, ⟨"", false⟩] := by
  refine ⟨by decide, by decide, by decide, by decide, ?_⟩
  rw [scrapeFeeds_posts sampleEnv (worldOf blogDb) blogFeed
    (DecodeEscapedStrings sampleUnescape threeItemFeed) rfl rfl rfl, createPostCalls_titles]
  decide

/-! ## Scheduler -/

theorem aggBody_ret {σ : Type} (env : Env σ) (w : World σ) :
    (aggBody env w).1 = Res.ret () := by
  obtain ⟨r, hr⟩ := scrapeFeeds_returns env w
  have h : scrapeFeeds env w = (Res.ret r, (scrapeFeeds env w).2) := Prod.ext hr rfl
  unfold aggBody
  rw [bind_def, M.bind_ret _ _ w _ r h]
  cases r <;> simp [Printf, Println, bind_def, M.bind, pure_def, M.pure]

theorem aggLoop_running {σ : Type} (env : Env σ) (ticks : Nat) (w : World σ) :
    aggLoop env ticks w
      = (Res.running, Nat.iterate (fun w1 => (aggBody env w1).2) (ticks + 1) w) := by
  induction ticks generalizing w with
  | zero =>
    have h : aggBody env w = (Res.ret (), (aggBody env w).2) := Prod.ext (aggBody_ret env w) rfl
    rw [aggLoop, bind_def, M.bind_ret _ _ w _ () h]
    rfl
  | succ n ih =>
    have h : aggBody env w = (Res.ret (), (aggBody env w).2) := Prod.ext (aggBody_ret env w) rfl
    rw [aggLoop, bind_def, M.bind_ret _ _ w _ () h, ih]
    rfl

/-- With one argument that parses to a positive duration, `handlerAgg` is still
running after any number of ticks: it has announced the interval and made one
cycle more than ticks, whatever the cycles returned. -/
theorem handlerAgg_positive {σ : Type} (env : Env σ) (ticks : Nat) (name arg : String)
    (d : Int) (w : World σ) (hparse : env.ParseDuration arg = .ok d) (hpos : 0 < d) :
    handlerAgg env ticks ⟨name, [arg]⟩ w
      = (Res.running,
          Nat.iterate (fun w1 => (aggBody env w1).2) (ticks + 1)
            { w with out := w.out ++ ["\nCollecting feeds every " ++ env.fmtDuration d ++ "\n"] })
      := by
  have hn : ¬ d ≤ 0 := by omega
  simp [handlerAgg, index, bind_def, M.bind, pure_def, M.pure, hparse, Printf, NewTicker, hn,
    aggLoop_running]

/-- With one argument that parses to a duration that is not positive,
`handlerAgg` panics in `time.NewTicker` after announcing the interval, before
any cycle. -/
theorem handlerAgg_nonpositive {σ : Type} (env : Env σ) (ticks : Nat) (name arg : String)
    (d : Int) (w : World σ) (hparse : env.ParseDuration arg = .ok d) (hpos : d ≤ 0) :
    handlerAgg env ticks ⟨name, [arg]⟩ w
      = (Res.panic "non-positive interval for NewTicker",
          { w with out := w.out ++ ["\nCollecting feeds every " ++ env.fmtDuration d ++ "\n"] })
      := by
  simp [handlerAgg, index, bind_def, M.bind, pure_def, M.pure, hparse, Printf, NewTicker, hpos,
    goPanic]

/-- C8, at the failing input: the duration string `0s` is accepted, with
value 0, and `handlerAgg` on the argument list `["0s"]` panics in
`time.NewTicker`, whatever the number of ticks: it announces the interval and
makes no cycle and no call of the store. -/
theorem handlerAgg_zero_duration_panics (ticks : Nat) :
    sampleEnv.ParseDuration "0s" = .ok 0
      ∧ (handlerAgg sampleEnv ticks ⟨"agg", ["0s"]⟩ (worldOf blogDb)).1
          = Res.panic "non-positive interval for NewTicker"
      ∧ (handlerAgg sampleEnv ticks ⟨"agg", ["0s"]⟩ (worldOf blogDb)).2.trace = []
      ∧ (handlerAgg sampleEnv ticks ⟨"agg", ["0s"]⟩ (worldOf blogDb)).2.out
          = ["\nCollecting feeds every 0s\n"] := by
  have h := handlerAgg_nonpositive sampleEnv ticks "agg" "0s" 0 (worldOf blogDb) rfl
    (le_refl 0)
  rw [h]
  exact ⟨rfl, rfl, rfl, rfl⟩

/-! ## The program -/

theorem main_dispatch {σ : Type} (env : Env σ) (ticks : Nat) (w : World σ) (cfg : Config)
    (prog name : String) (args : List String)
    (hread : Read env = .ok cfg) (hopen : env.sqlOpen cfg.DbUrl = none) :
    main env ticks (prog :: name :: args) w
      = (if name ∈ knownCommands then runOrExit (mainCommands env ticks) name args else pure ())
          { w with s := { w.s with config := cfg } } := by
  have hlen : ¬ (prog :: name :: args).length < 2 := by simp
  have hidx : (index (prog :: name :: args) 1 : M σ String) = M.pure name := by
    simp [index, pure_def]
  have hdrop : List.drop 2 (prog :: name :: args) = args := rfl
  simp only [main, hread, hopen, hlen, if_false, hidx, bind_def, M.bind_pure_left, hdrop]
  rw [M.bind_ret _ _ w { w with s := { w.s with config := cfg } } () rfl]
  by_cases hk : name ∈ knownCommands
  · rw [if_pos hk]
    simp only [knownCommands, List.mem_cons, List.mem_singleton, List.not_mem_nil,
      or_false] at hk
    rcases hk with h | h | h | h | h | h | h | h | h | h | h <;> subst h <;> simp
  · rw [if_neg hk]
    simp only [knownCommands, List.mem_cons, List.mem_singleton, List.not_mem_nil,
      or_false, not_or] at hk
    obtain ⟨h1, h2, h3, h4, h5, h6, h7, h8, h9, h10, h11⟩ := hk
    simp [h1, h2, h3, h4, h5, h6, h7, h8, h9, h10, h11]

theorem runOrExit_error {σ : Type} (c : commands σ) (name : String) (args : List String)
    (w w1 : World σ) (e : Error) (h : c.run ⟨name, args⟩ w = (Res.ret (some e), w1)) :
    runOrExit c name args w
      = (Res.exit (-1),
          { w1 with out := w1.out ++ ["Error executing command\n", e.Error ++ "\n"] }) := by
  simp [runOrExit, bind_def, M.bind, h, Println, Printf, osExit]

theorem runOrExit_ok {σ : Type} (c : commands σ) (name : String) (args : List String)
    (w w1 : World σ) (h : c.run ⟨name, args⟩ w = (Res.ret none, w1)) :
    runOrExit c name args w = (Res.ret (), w1) := by
  simp [runOrExit, bind_def, M.bind, h, pure_def, M.pure]

theorem middlewareLoggedIn_apply {σ : Type} (env : Env σ) (handler : UserHandler σ)
    (cmd : command) (w : World σ) :
    middlewareLoggedIn env handler cmd w
      = match (env.GetUser w.s.config.CurrentUserName w.s.db).1 with
        | .error err =>
          (Res.ret (some err),
            { w with
              s := { w.s with db := (env.GetUser w.s.config.CurrentUserName w.s.db).2 }
              trace := w.trace ++ [Call.GetUser w.s.config.CurrentUserName] })
        | .ok user =>
          handler cmd user
            { w with
              s := { w.s with db := (env.GetUser w.s.config.CurrentUserName w.s.db).2 }
              trace := w.trace ++ [Call.GetUser w.s.config.CurrentUserName] } := by
  cases hr : (env.GetUser w.s.config.CurrentUserName w.s.db).1 with
  | error err => simp [middlewareLoggedIn, readConfig, bind_def, pure_def, M.bind, M.pure, query, hr]
  | ok user => simp [middlewareLoggedIn, readConfig, bind_def, pure_def, M.bind, M.pure, query, hr]

theorem mainCommands_lookup {σ : Type} (env : Env σ) (ticks : Nat) :
    List.lookup "login" (mainCommands env ticks).cmds = some (handlerLogin env)
      ∧ List.lookup "register" (mainCommands env ticks).cmds = some (handlerRegister env)
      ∧ List.lookup "reset" (mainCommands env ticks).cmds = some (handlerReset env)
      ∧ List.lookup "agg" (mainCommands env ticks).cmds = some (handlerAgg env ticks)
      ∧ List.lookup "addfeed" (mainCommands env ticks).cmds
          = some (middlewareLoggedIn env (handlerAddFeed env))
      ∧ List.lookup "follow" (mainCommands env ticks).cmds
          = some (middlewareLoggedIn env (handlerFollow env))
      ∧ List.lookup "unfollow" (mainCommands env ticks).cmds
          = some (middlewareLoggedIn env (handlerUnfollow env))
      ∧ List.lookup "browser" (mainCommands env ticks).cmds
          = some (middlewareLoggedIn env (handlerBrowse env))
      ∧ List.lookup "browse" (mainCommands env ticks).cmds = none := by
  simp [mainCommands, lookup_register, commands.empty]

theorem main_plain_error {σ : Type} (env : Env σ) (ticks : Nat) (w : World σ) (cfg : Config)
    (prog name : String) (args : List String) (h : Handler σ) (e : Error)
    (hread : Read env = .ok cfg) (hopen : env.sqlOpen cfg.DbUrl = none)
    (hk : name ∈ knownCommands)
    (hl : List.lookup name (mainCommands env ticks).cmds = some h)
    (hh : ∀ w1, h ⟨name, args⟩ w1 = (Res.ret (some e), w1)) :
    main env ticks (prog :: name :: args) w
      = (Res.exit (-1),
          { w with
            s := { w.s with config := cfg }
            out := w.out ++ ["Error executing command\n", e.Error ++ "\n"] }) := by
  rw [main_dispatch env ticks w cfg prog name args hread hopen, if_pos hk]
  rw [runOrExit_error (mainCommands env ticks) name args _ _ e
    ((run_of_lookup (mainCommands env ticks) ⟨name, args⟩ h _ hl).trans (hh _))]

theorem main_login_error {σ : Type} (env : Env σ) (ticks : Nat) (w : World σ) (cfg : Config)
    (prog name : String) (args : List String) (h : UserHandler σ) (e : Error)
    (hread : Read env = .ok cfg) (hopen : env.sqlOpen cfg.DbUrl = none)
    (hk : name ∈ knownCommands)
    (hl : List.lookup name (mainCommands env ticks).cmds = some (middlewareLoggedIn env h))
    (hh : ∀ user w1, h ⟨name, args⟩ user w1 = (Res.ret (some e), w1)) :
    ∃ e1 : Error, main env ticks (prog :: name :: args) w
      = (Res.exit (-1),
          { w with
            s := { db := (env.GetUser cfg.CurrentUserName w.s.db).2, config := cfg }
            out := w.out ++ ["Error executing command\n", e1.Error ++ "\n"]
            trace := w.trace ++ [Call.GetUser cfg.CurrentUserName] }) := by
  rw [main_dispatch env ticks w cfg prog name args hread hopen, if_pos hk]
  have hrun := run_of_lookup (mainCommands env ticks) ⟨name, args⟩ _
    { w with s := { w.s with config := cfg } } hl
  rw [middlewareLoggedIn_apply] at hrun
  cases hu : (env.GetUser cfg.CurrentUserName w.s.db).1 with
  | error err =>
    simp only [hu] at hrun
    exact ⟨err, by rw [runOrExit_error _ name args _ _ err hrun]⟩
  | ok user =>
    simp only [hu, hh] at hrun
    exact ⟨e, by rw [runOrExit_error _ name args _ _ e hrun]⟩

theorem handlerLogin_arity {σ : Type} (env : Env σ) (name : String) (args : List String)
    (h : args.length ≠ 1) (w : World σ) :
    handlerLogin env ⟨name, args⟩ w
      = (Res.ret (some (Error.errorf "long handler expects a single argument, the username")),
          w) := by
  simp [handlerLogin, h, pure_def, M.pure]

theorem handlerRegister_arity {σ : Type} (env : Env σ) (name : String) (args : List String)
    (h : args.length ≠ 1) (w : World σ) :
    handlerRegister env ⟨name, args⟩ w
      = (Res.ret (some (Error.errorf
          "register handler expects a single argument, the username")), w) := by
  simp [handlerRegister, h, pure_def, M.pure]

theorem handlerAgg_arity {σ : Type} (env : Env σ) (ticks : Nat) (name : String)
    (args : List String) (h : args.length ≠ 1) (w : World σ) :
    handlerAgg env ticks ⟨name, args⟩ w
      = (Res.ret (some (Error.errorf
          "agg handler expects a single argument, the time between request")), w) := by
  simp [handlerAgg, h, pure_def, M.pure]

theorem handlerAddFeed_arity {σ : Type} (env : Env σ) (name : String) (args : List String)
    (h : args.length ≠ 2) (user : User) (w : World σ) :
    handlerAddFeed env ⟨name, args⟩ user w
      = (Res.ret (some (Error.errorf
          "addfeed handler expects two arguments, the username and URL")), w) := by
  simp [handlerAddFeed, h, pure_def, M.pure]

theorem handlerFollow_arity {σ : Type} (env : Env σ) (name : String) (args : List String)
    (h : args.length ≠ 1) (user : User) (w : World σ) :
    handlerFollow env ⟨name, args⟩ user w
      = (Res.ret (some (Error.errorf "follow handler expects a single argument, the URL")),
          w) := by
  simp [handlerFollow, h, pure_def, M.pure]

theorem handlerUnfollow_arity {σ : Type} (env : Env σ) (name : String) (args : List String)
    (h : args.length ≠ 1) (user : User) (w : World σ) :
    handlerUnfollow env ⟨name, args⟩ user w
      = (Res.ret (some (Error.errorf "follow handler expects a single argument, the URL")),
          w) := by
  simp [handlerUnfollow, h, pure_def, M.pure]

theorem exitStatus_minus_one : exitStatus (Res.exit (-1)) = some 255 := by decide

/-- Counterexample to C9: `reset` requires no argument, and yet the command
line `gator reset extra` on the sample store runs the command: all users are
deleted, no failure is printed, and `main` returns, so the exit status is 0. -/
theorem main_reset_ignores_extra_argument :
    exitStatus (main sampleEnv 0 ["gator", "reset", "extra"] (worldOf blogDb)).1 = some 0
      ∧ callsSince (worldOf blogDb)
          (main sampleEnv 0 ["gator", "reset", "extra"] (worldOf blogDb)).2 = [Call.DeleteUsers]
      ∧ (worldOf blogDb).s.db.users = [kahya]
      ∧ (main sampleEnv 0 ["gator", "reset", "extra"] (worldOf blogDb)).2.s.db.users = []
      ∧ (main sampleEnv 0 ["gator", "reset", "extra"] (worldOf blogDb)).2.out
          = ["Reset command was execute successuly.\n"] := by
  refine ⟨by decide, by decide, by decide, by decide, by decide⟩

/-- Once the configuration is read and the store opened, a command line whose
command checks the number of its arguments and gets another number ends in
`os.Exit(-1)`, with the configuration as read and no call of the store but, for
the commands behind the middleware, the lookup of the current user. -/
theorem main_bad_arity_started {σ : Type} (env : Env σ) (ticks : Nat) (w : World σ) (cfg : Config)
    (prog name : String) (args : List String) (n : Nat)
    (hread : Read env = .ok cfg) (hopen : env.sqlOpen cfg.DbUrl = none)
    (hreq : requiredArgs name = some n) (hlen : args.length ≠ n) :
    (main env ticks (prog :: name :: args) w).1 = Res.exit (-1)
      ∧ exitStatus (main env ticks (prog :: name :: args) w).1 = some 255
      ∧ (main env ticks (prog :: name :: args) w).2.s.config = cfg
      ∧ callsSince w (main env ticks (prog :: name :: args) w).2
          = (if behindLogin name then [Call.GetUser cfg.CurrentUserName] else [])
      ∧ (main env ticks (prog :: name :: args) w).2.s.db
          = (if behindLogin name then (env.GetUser cfg.CurrentUserName w.s.db).2 else w.s.db)
      ∧ ∃ e : Error, (main env ticks (prog :: name :: args) w).2.out
          = w.out ++ ["Error executing command\n", e.Error ++ "\n"] := by
  obtain ⟨l1, l2, _, l4, l5, l6, l7, _, _⟩ := mainCommands_lookup env ticks
  have hplain : ∀ (h : Handler σ) (e : Error), name ∈ knownCommands → behindLogin name = false →
      List.lookup name (mainCommands env ticks).cmds = some h →
      (∀ w1, h ⟨name, args⟩ w1 = (Res.ret (some e), w1)) →
      (main env ticks (prog :: name :: args) w).1 = Res.exit (-1)
      ∧ exitStatus (main env ticks (prog :: name :: args) w).1 = some 255
      ∧ (main env ticks (prog :: name :: args) w).2.s.config = cfg
      ∧ callsSince w (main env ticks (prog :: name :: args) w).2
          = (if behindLogin name then [Call.GetUser cfg.CurrentUserName] else [])
      ∧ (main env ticks (prog :: name :: args) w).2.s.db
          = (if behindLogin name then (env.GetUser cfg.CurrentUserName w.s.db).2 else w.s.db)
      ∧ ∃ e : Error, (main env ticks (prog :: name :: args) w).2.out
          = w.out ++ ["Error executing command\n", e.Error ++ "\n"] := by
    intro h e hk hb hl hh
    rw [main_plain_error env ticks w cfg prog name args h e hread hopen hk hl hh, hb]
    exact ⟨rfl, exitStatus_minus_one, rfl, by simp [callsSince], rfl, e, rfl⟩
  have hlogin : ∀ (h : UserHandler σ) (e : Error), name ∈ knownCommands →
      behindLogin name = true →
      List.lookup name (mainCommands env ticks).cmds = some (middlewareLoggedIn env h) →
      (∀ user w1, h ⟨name, args⟩ user w1 = (Res.ret (some e), w1)) →
      (main env ticks (prog :: name :: args) w).1 = Res.exit (-1)
      ∧ exitStatus (main env ticks (prog :: name :: args) w).1 = some 255
      ∧ (main env ticks (prog :: name :: args) w).2.s.config = cfg
      ∧ callsSince w (main env ticks (prog :: name :: args) w).2
          = (if behindLogin name then [Call.GetUser cfg.CurrentUserName] else [])
      ∧ (main env ticks (prog :: name :: args) w).2.s.db
          = (if behindLogin name then (env.GetUser cfg.CurrentUserName w.s.db).2 else w.s.db)
      ∧ ∃ e : Error, (main env ticks (prog :: name :: args) w).2.out
          = w.out ++ ["Error executing command\n", e.Error ++ "\n"] := by
    intro h e hk hb hl hh
    obtain ⟨e1, he1⟩ := main_login_error env ticks w cfg prog name args h e hread hopen hk hl hh
    rw [he1, hb]
    exact ⟨rfl, exitStatus_minus_one, rfl, by simp [callsSince], rfl, e1, rfl⟩
  unfold requiredArgs at hreq
  split_ifs at hreq with h1 h2 h3 h4 h5 h6 <;> simp only [Option.some.injEq] at hreq <;>
    subst hreq
  · subst h1
    exact hplain _ _ (by decide) (by decide) l1 (handlerLogin_arity env _ args hlen)
  · subst h2
    exact hplain _ _ (by decide) (by decide) l2 (handlerRegister_arity env _ args hlen)
  · subst h3
    exact hplain _ _ (by decide) (by decide) l4 (handlerAgg_arity env ticks _ args hlen)
  · subst h4
    exact hlogin _ _ (by decide) (by decide) l5 (handlerAddFeed_arity env _ args hlen)
  · subst h5
    exact hlogin _ _ (by decide) (by decide) l6 (handlerFollow_arity env _ args hlen)
  · subst h6
    exact hlogin _ _ (by decide) (by decide) l7 (handlerUnfollow_arity env _ args hlen)

theorem main_read_failure {σ : Type} (env : Env σ) (ticks : Nat) (w : World σ)
    (args : List String) (e : Error) (hread : Read env = .error e) :
    main env ticks args w
      = (Res.exit (-1), { w with out := w.out ++ ["Error reading configuration file!\n"] }) := by
  simp [main, hread, bind_def, M.bind, Println, Printf, osExit]

theorem main_open_failure {σ : Type} (env : Env σ) (ticks : Nat) (w : World σ)
    (args : List String) (cfg : Config) (e : Error) (hread : Read env = .ok cfg)
    (hopen : env.sqlOpen cfg.DbUrl = some e) :
    main env ticks args w
      = (Res.exit (-1), { w with out := w.out ++ ["error: failed to open database\n"] }) := by
  simp [main, hread, hopen, bind_def, M.bind, Println, Printf, osExit]

/-- C9, amended: a command line that names `login`, `register`, `agg`, `follow`
or `unfollow` with a number of arguments other than one, or `addfeed` with a
number other than two, ends in `os.Exit(-1)`, exit status 255, after printing
a failure. The store is not called, except that `addfeed`, `follow` and
`unfollow` may first look the current user up; the configuration file is not
written, and the configuration is the one the program started with or the one
it read. -/
theorem main_bad_arity {σ : Type} (env : Env σ) (ticks : Nat) (w : World σ)
    (prog name : String) (args : List String) (n : Nat)
    (hreq : requiredArgs name = some n) (hlen : args.length ≠ n) :
    (main env ticks (prog :: name :: args) w).1 = Res.exit (-1)
      ∧ exitStatus (main env ticks (prog :: name :: args) w).1 = some 255
      ∧ (∃ lines, lines ≠ []
          ∧ (main env ticks (prog :: name :: args) w).2.out = w.out ++ lines)
      ∧ (callsSince w (main env ticks (prog :: name :: args) w).2 = []
          ∨ (behindLogin name = true
            ∧ ∃ user, callsSince w (main env ticks (prog :: name :: args) w).2
                = [Call.GetUser user]))
      ∧ (behindLogin name = false →
          (main env ticks (prog :: name :: args) w).2.s.db = w.s.db)
      ∧ ((main env ticks (prog :: name :: args) w).2.s.config = w.s.config
          ∨ Read env = .ok (main env ticks (prog :: name :: args) w).2.s.config) := by
  cases hread : Read env with
  | error e =>
    rw [main_read_failure env ticks w _ e hread]
    exact ⟨rfl, exitStatus_minus_one, ⟨_, by simp, rfl⟩, Or.inl (by simp [callsSince]),
      fun _ => rfl, Or.inl rfl⟩
  | ok cfg =>
    cases hopen : env.sqlOpen cfg.DbUrl with
    | some e =>
      rw [main_open_failure env ticks w _ cfg e hread hopen]
      exact ⟨rfl, exitStatus_minus_one, ⟨_, by simp, rfl⟩, Or.inl (by simp [callsSince]),
        fun _ => rfl, Or.inl rfl⟩
    | none =>
      obtain ⟨h1, h2, h3, h4, h5, e, h6⟩ :=
        main_bad_arity_started env ticks w cfg prog name args n hread hopen hreq hlen
      refine ⟨h1, h2, ⟨_, by simp, h6⟩, ?_, ?_, Or.inr (by rw [h3])⟩
      · cases hb : behindLogin name with
        | false =>
          rw [hb] at h4
          exact Or.inl (by simpa using h4)
        | true =>
          rw [hb] at h4
          exact Or.inr ⟨rfl, cfg.CurrentUserName, by simpa using h4⟩
      · intro hb
        rw [hb] at h5
        simpa using h5

/-- Witness of C9, amended: `addfeed` with one argument on the sample store. -/
theorem main_bad_arity_witness :
    Read sampleEnv = .ok sampleConfig
      ∧ sampleEnv.sqlOpen sampleConfig.DbUrl = none
      ∧ requiredArgs "addfeed" = some 2
      ∧ ["Blog"].length ≠ 2
      ∧ (main sampleEnv 0 ["gator", "addfeed", "Blog"] (worldOf blogDb)).1 = Res.exit (-1)
      ∧ callsSince (worldOf blogDb) (main sampleEnv 0 ["gator", "addfeed", "Blog"]
          (worldOf blogDb)).2 = [Call.GetUser "kahya"] :=
  ⟨rfl, rfl, by decide, by decide,
    (main_bad_arity sampleEnv 0 (worldOf blogDb) "gator" "addfeed" ["Blog"] 2
      (by decide) (by decide)).1,
    by decide⟩

theorem main_unknown_command {σ : Type} (env : Env σ) (ticks : Nat) (w : World σ)
    (cfg : Config) (prog name : String) (args : List String)
    (hread : Read env = .ok cfg) (hopen : env.sqlOpen cfg.DbUrl = none)
    (hk : name ∉ knownCommands) :
    main env ticks (prog :: name :: args) w
      = (Res.ret (), { w with s := { w.s with config := cfg } }) := by
  rw [main_dispatch env ticks w cfg prog name args hread hopen, if_neg hk]
  rfl

/-- C10, at the failing input: `main` has no branch for the name `browse` (the
handler is registered, and tested for, under the name `browser`), so the
command line `gator browse`, with any further arguments, on the sample store
whose current user resolves, returns from `main` with the world as it was: no
query of the store, nothing printed, exit status 0. Under the name `browser`
the same command line looks the user up and queries the posts with limit 2. -/
theorem main_browse_not_dispatched (args : List String) :
    main sampleEnv 0 ("gator" :: "browse" :: args) (worldOf blogDb)
        = (Res.ret (), worldOf blogDb)
      ∧ exitStatus (main sampleEnv 0 ("gator" :: "browse" :: args) (worldOf blogDb)).1 = some 0
      ∧ callsSince (worldOf blogDb)
          (main sampleEnv 0 ("gator" :: "browse" :: args) (worldOf blogDb)).2 = []
      ∧ (sampleEnv.GetUser (worldOf blogDb).s.config.CurrentUserName (worldOf blogDb).s.db).1
          = .ok kahya
      ∧ callsSince (worldOf blogDb) (main sampleEnv 0 ["gator", "browser"] (worldOf blogDb)).2
          = [Call.GetUser "kahya", Call.GetPostsForUser ⟨⟨1⟩, 2⟩] := by
  have h := main_unknown_command sampleEnv 0 (worldOf blogDb) sampleConfig "gator" "browse" args
    rfl rfl (by decide)
  have hw : ({ worldOf blogDb with s := { (worldOf blogDb).s with config := sampleConfig } }
      : World MemDb) = worldOf blogDb := rfl
  rw [hw] at h
  rw [h]
  exact ⟨rfl, rfl, rfl, rfl, by decide⟩

/-- Under the name `browser`, a limit beyond 32 bits is wrapped by the
conversion to `int32`: the argument `4294967298` queries with limit 2. -/
theorem main_browser_limit_wraps :
    sampleEnv.Atoi "4294967298" = .ok 4294967298
      ∧ callsSince (worldOf blogDb)
          (main sampleEnv 0 ["gator", "browser", "4294967298"] (worldOf blogDb)).2
          = [Call.GetUser "kahya", Call.GetPostsForUser ⟨⟨1⟩, 2⟩]
      ∧ callsSince (worldOf blogDb)
          (main sampleEnv 0 ["gator", "browser", "7"] (worldOf blogDb)).2
          = [Call.GetUser "kahya", Call.GetPostsForUser ⟨⟨1⟩, 7⟩] := by
  refine ⟨rfl, by decide, by decide⟩

end Gator
